import Mathlib

/-! # Relay filtering and map-response assembly (`api_common.go`)

A shallow embedding of `getDERPMapByMachine`, `filterPeerDERP` and
`generateMapResponse` from `api_common.go`, followed by the properties
established about them.

Modelling conventions.

* Go strings are Lean `String`s; `strings.HasPrefix` and `strings.TrimPrefix`
  are modelled on the character lists (the prefixes at hand are ASCII, for
  which bytes and characters agree).
* A Go `map[K]V` is an `AList`: a finite list of entries with pairwise
  distinct keys.  Reading a key is `AList.lookup`, the assignment `m[k] = v`
  is `AList.insert`, `len(m)` is the number of entries, and `range m` visits
  the entries once each (the order in which it does so never shows in the
  results below, which are all stated through `lookup`).
* `fmt.Sprintf("%d", id)` is the decimal rendering `toString` of an integer.
* Types declared outside `api_common.go` (`tailcfg.DERPRegion`, the fields of
  `tailcfg.Node` other than `DERP`, ...) are type parameters.
* Where a property speaks of what stays in memory (the shared `DERPMap` is not
  written, the filtered map is a new object), `getDERPMapByMachine` is also
  given on a `Store` of map and struct objects, and shown to agree with the
  function on values.
-/

namespace ApiCommon

/-! ## Library functions used by the source -/

/-- Go `strings.HasPrefix s p`: whether `s` begins with `p`. -/
def HasPrefix (s p : String) : Bool :=
  p.data.isPrefixOf s.data

/-- Go `strings.TrimPrefix s p`: `s` without the leading `p`; `s` itself when
`s` does not begin with `p`. -/
def TrimPrefix (s p : String) : String :=
  if HasPrefix s p then String.mk (s.data.drop p.data.length) else s

/-- Go `fmt.Sprintf("%d", id)` on an `int`. -/
def SprintfD (id : Int) : String :=
  toString id

/-! ## Data model -/

/-- The part of `Machine` read by `api_common.go`. -/
structure Machine where
  ForcedTags : List String
  deriving DecidableEq, Repr

/-- The Go type `map[int]*tailcfg.DERPRegion`; `ρ` is `*tailcfg.DERPRegion`. -/
abbrev RegionMap (ρ : Type) : Type :=
  AList (fun _ : Int => ρ)

/-- The Go type `map[string]bool`. -/
abbrev StringSet : Type :=
  AList (fun _ : String => Bool)

/-- The struct `tailcfg.DERPMap`. -/
structure DERPMap (ρ : Type) where
  Regions : RegionMap ρ
  OmitDefaultRegions : Bool

/-- The struct `tailcfg.Node`: the `DERP` field, and every other field
gathered in `other`. -/
structure Node (α : Type) where
  DERP : String
  other : α
  deriving DecidableEq, Repr

/-! ## `getDERPMapByMachine` -/

/-- Body of the loop over `machine.ForcedTags` in `getDERPMapByMachine`
(lines 14-19). -/
def ignRegionsStep (ignRegions : StringSet) (tag : String) : StringSet :=
  if HasPrefix tag "tag:ignore-derp-" then
    ignRegions.insert (TrimPrefix tag "tag:ignore-derp-") true
  else
    ignRegions

/-- Body of the loop over `h.DERPMap.Regions` in `getDERPMapByMachine`
(lines 25-30). -/
def regionsStep {ρ : Type} (ignRegions : StringSet) (regions : RegionMap ρ)
    (e : Sigma (fun _ : Int => ρ)) : RegionMap ρ :=
  if (ignRegions.lookup (SprintfD e.1)).isSome then
    regions
  else
    regions.insert e.1 e.2

/-- The function `getDERPMapByMachine` (lines 12-36); `derpMap` is
`h.DERPMap`. -/
def getDERPMapByMachine {ρ : Type} (derpMap : DERPMap ρ) (machine : Machine) :
    DERPMap ρ :=
  let ignRegions : StringSet := machine.ForcedTags.foldl ignRegionsStep ∅
  if ignRegions.entries.length = 0 then
    derpMap
  else
    let regions : RegionMap ρ :=
      derpMap.Regions.entries.foldl (regionsStep ignRegions) ∅
    { Regions := regions, OmitDefaultRegions := derpMap.OmitDefaultRegions }

/-! ## `filterPeerDERP` -/

/-- The local `derpMagicIP` of `filterPeerDERP`. -/
def derpMagicIP : String := "127.3.3.40:"

/-- The two locals that the loop over `machine.ForcedTags` in
`filterPeerDERP` updates. -/
structure TagScan where
  ignRegions : StringSet
  defaultDerp : String

/-- Body of the loop over `machine.ForcedTags` in `filterPeerDERP`
(lines 42-50). -/
def tagScanStep (st : TagScan) (tag : String) : TagScan :=
  let st1 : TagScan :=
    if HasPrefix tag "tag:ignore-derp-" then
      { st with ignRegions := st.ignRegions.insert (TrimPrefix tag "tag:ignore-derp-") true }
    else
      st
  if HasPrefix tag "tag:fallback-derp-" then
    { st1 with defaultDerp := TrimPrefix tag "tag:fallback-derp-" }
  else
    st1

/-- The locals of `filterPeerDERP` after the loop over the tags
(lines 40-50). -/
def tagScan (machine : Machine) : TagScan :=
  machine.ForcedTags.foldl tagScanStep { ignRegions := ∅, defaultDerp := "0" }

/-- Body of the loop over `nodePeers` in `filterPeerDERP` (lines 55-58). -/
def peerStep {α : Type} (st : TagScan) (node : Node α) : Node α :=
  let derpPort := TrimPrefix node.DERP derpMagicIP
  if (st.ignRegions.lookup derpPort).isSome then
    { node with DERP := derpMagicIP ++ st.defaultDerp }
  else
    node

/-- The function `filterPeerDERP` (lines 38-60): the peer list after the
call, given the peer list before it.  The pointers of `nodePeers` are non-nil;
a pointer that occurs twice is visited twice, and the second visit leaves the
node as the first one left it, so that the list of pointed-to values after
the call is the one computed here. -/
def filterPeerDERP {α : Type} (machine : Machine) (nodePeers : List (Node α)) :
    List (Node α) :=
  let st := tagScan machine
  if st.ignRegions.entries.length = 0 then
    nodePeers
  else
    nodePeers.map (peerStep st)

/-! ## `generateMapResponse` -/

/-- The fields of `h.cfg` read by `generateMapResponse`; `δ` is
`*tailcfg.DNSConfig`. -/
structure Config (δ : Type) where
  BaseDomain : String
  DNSConfig : δ
  LogTailEnabled : Bool
  RandomizeClientPort : Bool

/-- The fields of the receiver `h` read by `api_common.go`; `φ` is
`[]tailcfg.FilterRule` and `σ` is `*tailcfg.SSHPolicy`. -/
structure Headscale (ρ δ φ σ : Type) where
  DERPMap : DERPMap ρ
  cfg : Config δ
  aclRules : φ
  sshPolicy : σ

/-- The part of `tailcfg.MapRequest` read by `generateMapResponse`: the host
name, which only feeds the trace log. -/
structure MapRequest where
  Hostname : String

/-- The functions and methods that `generateMapResponse` calls and that are
declared outside `api_common.go`.  A Go result `(v, err)` with `err != nil`
is `Except.error err`, and `Except.ok v` otherwise.  `υ` is
`[]tailcfg.UserProfile`, `τ` is `time.Time`, `ε` is `error`. -/
structure Collaborators (α δ υ τ ε : Type) where
  toNode : Machine → String → δ → Except ε (Node α)
  getValidPeers : Machine → Except ε (List Machine)
  getMapResponseUserProfiles : Machine → List Machine → υ
  toNodes : List Machine → String → δ → Except ε (List (Node α))
  getMapResponseDNSConfig : δ → String → Machine → List Machine → δ
  timeNow : τ

/-- One call made by `generateMapResponse` to a collaborator, with its
arguments. -/
inductive Call (δ : Type) where
  | toNode (machine : Machine) (baseDomain : String) (dnsConfig : δ)
  | getValidPeers (machine : Machine)
  | getMapResponseUserProfiles (machine : Machine) (peers : List Machine)
  | toNodes (peers : List Machine) (baseDomain : String) (dnsConfig : δ)
  | getMapResponseDNSConfig (dnsConfig : δ) (baseDomain : String) (machine : Machine)
      (peers : List Machine)
  | timeNow
  deriving DecidableEq

/-- The struct `tailcfg.Debug`, with the fields that `generateMapResponse`
sets. -/
structure Debug where
  DERPRoute : String
  DisableLogTail : Bool
  RandomizeClientPort : Bool
  deriving DecidableEq, Repr

/-- The struct `tailcfg.MapResponse`, with the fields that
`generateMapResponse` sets. -/
structure MapResponse (ρ α δ φ σ υ τ : Type) where
  KeepAlive : Bool
  Node : Node α
  DERPMap : DERPMap ρ
  Peers : List (ApiCommon.Node α)
  DNSConfig : δ
  Domain : String
  CollectServices : String
  PacketFilter : φ
  UserProfiles : υ
  SSHPolicy : σ
  ControlTime : τ
  Debug : Debug

/-- What one run of `generateMapResponse` does: the collaborator calls it
makes, in order, and the Go result pair `(*tailcfg.MapResponse, error)`,
where `none` is `nil`. -/
structure Run (ρ α δ φ σ υ τ ε : Type) where
  calls : List (Call δ)
  response : Option (MapResponse ρ α δ φ σ υ τ)
  err : Option ε

/-- The function `generateMapResponse` (lines 62-167).  The calls to the
logger are left out. -/
def generateMapResponse {ρ α δ φ σ υ τ ε : Type} (h : Headscale ρ δ φ σ)
    (c : Collaborators α δ υ τ ε) (_mapRequest : MapRequest) (machine : Machine) :
    Run ρ α δ φ σ υ τ ε :=
  let call1 := Call.toNode machine h.cfg.BaseDomain h.cfg.DNSConfig
  match c.toNode machine h.cfg.BaseDomain h.cfg.DNSConfig with
  | .error err => { calls := [call1], response := none, err := some err }
  | .ok node =>
    let call2 := Call.getValidPeers machine
    match c.getValidPeers machine with
    | .error err => { calls := [call1, call2], response := none, err := some err }
    | .ok peers =>
      let call3 := Call.getMapResponseUserProfiles machine peers
      let profiles := c.getMapResponseUserProfiles machine peers
      let call4 := Call.toNodes peers h.cfg.BaseDomain h.cfg.DNSConfig
      match c.toNodes peers h.cfg.BaseDomain h.cfg.DNSConfig with
      | .error err =>
        { calls := [call1, call2, call3, call4], response := none, err := some err }
      | .ok nodePeers0 =>
        let nodePeers := filterPeerDERP machine nodePeers0
        let call5 :=
          Call.getMapResponseDNSConfig h.cfg.DNSConfig h.cfg.BaseDomain machine peers
        let dnsConfig :=
          c.getMapResponseDNSConfig h.cfg.DNSConfig h.cfg.BaseDomain machine peers
        let now := c.timeNow
        let resp : MapResponse ρ α δ φ σ υ τ :=
          { KeepAlive := false
            Node := node
            DERPMap := getDERPMapByMachine h.DERPMap machine
            Peers := nodePeers
            DNSConfig := dnsConfig
            Domain := h.cfg.BaseDomain
            CollectServices := "false"
            PacketFilter := h.aclRules
            UserProfiles := profiles
            SSHPolicy := h.sshPolicy
            ControlTime := now
            Debug :=
              { DERPRoute := "true"
                DisableLogTail := !h.cfg.LogTailEnabled
                RandomizeClientPort := h.cfg.RandomizeClientPort } }
        { calls := [call1, call2, call3, call4, call5, Call.timeNow]
          response := some resp
          err := none }

/-! ## `getDERPMapByMachine` on a store

The functions above compute with values.  To speak of what a call leaves in
memory, the maps and structs that `getDERPMapByMachine` reads, allocates and
writes are laid out in a store. -/

/-- The objects of type `map[int]*tailcfg.DERPRegion` and of type
`tailcfg.DERPMap` that are allocated.  A map reference, and a pointer to a
struct, is the position of the object in its list; a struct is the reference
of its `Regions` map and its `OmitDefaultRegions` flag. -/
structure Store (ρ : Type) where
  regionMaps : List (RegionMap ρ)
  derpMaps : List (Nat × Bool)

/-- The `tailcfg.DERPMap` that the pointer `p` leads to; `none` when `p`, or
the reference of its `Regions`, is not allocated. -/
def Store.readDERPMap {ρ : Type} (s : Store ρ) (p : Nat) : Option (DERPMap ρ) :=
  match s.derpMaps[p]? with
  | none => none
  | some d =>
    match s.regionMaps[d.1]? with
    | none => none
    | some m => some { Regions := m, OmitDefaultRegions := d.2 }

/-- The assignment `regions[id] = region` (line 29) on the map that the
reference `regions` leads to. -/
def Store.setRegion {ρ : Type} (s : Store ρ) (regions : Nat) (id : Int) (region : ρ) :
    Store ρ :=
  { s with regionMaps := s.regionMaps.modify (fun m => m.insert id region) regions }

/-- Body of the loop over `h.DERPMap.Regions` in `getDERPMapByMachine`
(lines 25-30), on the store. -/
def regionsStepS {ρ : Type} (ignRegions : StringSet) (regions : Nat) (s : Store ρ)
    (e : Sigma (fun _ : Int => ρ)) : Store ρ :=
  if (ignRegions.lookup (SprintfD e.1)).isSome then
    s
  else
    s.setRegion regions e.1 e.2

/-- The function `getDERPMapByMachine` (lines 12-36) on the store: the store
after the call and the pointer returned; `hDERPMap` is the pointer
`h.DERPMap`.  The result is `none` when the call dereferences a pointer that
is not allocated. -/
def getDERPMapByMachineS {ρ : Type} (s : Store ρ) (hDERPMap : Nat) (machine : Machine) :
    Option (Store ρ × Nat) :=
  let ignRegions : StringSet := machine.ForcedTags.foldl ignRegionsStep ∅
  if ignRegions.entries.length = 0 then
    some (s, hDERPMap)
  else
    -- regions := make(map[int]*tailcfg.DERPRegion)
    let regions := s.regionMaps.length
    let s1 : Store ρ := { s with regionMaps := s.regionMaps ++ [∅] }
    match s1.readDERPMap hDERPMap with
    | none => none
    | some src =>
      let s2 := src.Regions.entries.foldl (regionsStepS ignRegions regions) s1
      match s2.readDERPMap hDERPMap with
      | none => none
      | some d =>
        -- &tailcfg.DERPMap{Regions: regions, OmitDefaultRegions: ...}
        some ({ s2 with derpMaps := s2.derpMaps ++ [(regions, d.OmitDefaultRegions)] },
          s2.derpMaps.length)

/-- The effect of `generateMapResponse` (lines 62-167) on the store: the
store after the call, and the pointer put in the `DERPMap` field of the
response when one is built.  The store is reached through the call of
`getDERPMapByMachine` on line 120 only. -/
def generateMapResponseS {ρ α δ φ σ υ τ ε : Type} (s : Store ρ) (hDERPMap : Nat)
    (h : Headscale ρ δ φ σ) (c : Collaborators α δ υ τ ε) (machine : Machine) :
    Option (Store ρ × Option Nat) :=
  match c.toNode machine h.cfg.BaseDomain h.cfg.DNSConfig with
  | .error _ => some (s, none)
  | .ok _ =>
    match c.getValidPeers machine with
    | .error _ => some (s, none)
    | .ok peers =>
      match c.toNodes peers h.cfg.BaseDomain h.cfg.DNSConfig with
      | .error _ => some (s, none)
      | .ok _ =>
        match getDERPMapByMachineS s hDERPMap machine with
        | none => none
        | some (s1, q) => some (s1, some q)

/-! ## Auxiliary lemmas -/

/-! ### Strings -/

theorem hasPrefix_iff (s p : String) : HasPrefix s p = true ↔ ∃ r : String, s = p ++ r := by
  unfold HasPrefix
  rw [List.isPrefixOf_iff_prefix]
  constructor
  · rintro ⟨t, ht⟩
    exact ⟨String.mk t, String.ext (by simp [String.data_append, ht])⟩
  · rintro ⟨r, rfl⟩
    exact ⟨r.data, by simp [String.data_append]⟩

theorem hasPrefix_append (p r : String) : HasPrefix (p ++ r) p = true :=
  (hasPrefix_iff _ _).2 ⟨r, rfl⟩

theorem trimPrefix_append (p r : String) : TrimPrefix (p ++ r) p = r := by
  unfold TrimPrefix
  rw [if_pos (hasPrefix_append p r)]
  apply String.ext
  simp [String.data_append]

theorem trimPrefix_of_not (s p : String) (h : HasPrefix s p = false) : TrimPrefix s p = s := by
  unfold TrimPrefix
  simp [h]

theorem append_trimPrefix (s p : String) (h : HasPrefix s p = true) :
    p ++ TrimPrefix s p = s := by
  obtain ⟨r, rfl⟩ := (hasPrefix_iff s p).1 h
  rw [trimPrefix_append]

theorem append_right_injective (p r₁ r₂ : String) (h : p ++ r₁ = p ++ r₂) : r₁ = r₂ := by
  have := congrArg String.data h
  simp only [String.data_append, List.append_cancel_left_eq] at this
  exact String.ext this


/-! ### The loops of `getDERPMapByMachine` -/

/-- A string is a key of the set built by the tag loop of
`getDERPMapByMachine` exactly when it was a key at the start or it is the
remainder of an ignore tag met by the loop. -/
theorem mem_foldl_ignRegionsStep (tags : List String) (s : StringSet) (r : String) :
    r ∈ tags.foldl ignRegionsStep s ↔ r ∈ s ∨ ("tag:ignore-derp-" ++ r) ∈ tags := by
  induction tags generalizing s with
  | nil => simp
  | cons tag tags ih =>
    rw [List.foldl_cons, ih, List.mem_cons]
    unfold ignRegionsStep
    by_cases hp : HasPrefix tag "tag:ignore-derp-" = true
    · rw [if_pos hp, AList.mem_insert]
      constructor
      · rintro ((h | h) | h)
        · right; left
          rw [h, append_trimPrefix _ _ hp]
        · left; exact h
        · right; right; exact h
      · rintro (h | h | h)
        · left; right; exact h
        · left; left
          rw [← h, trimPrefix_append]
        · right; exact h
    · rw [if_neg hp]
      constructor
      · rintro (h | h)
        · left; exact h
        · right; right; exact h
      · rintro (h | h | h)
        · left; exact h
        · exact absurd (h ▸ hasPrefix_append _ _) hp
        · right; exact h

theorem entries_length_eq_zero_iff {β : Type} (s : AList (fun _ : String => β)) :
    s.entries.length = 0 ↔ ∀ r, r ∉ s := by
  rcases s with ⟨l, hl⟩
  cases l with
  | nil => simp [AList.mem_keys, AList.keys]
  | cons e l =>
    simp only [List.length_cons, Nat.succ_ne_zero, false_iff, not_forall, not_not]
    exact ⟨e.1, by simp [AList.mem_keys, AList.keys]⟩

theorem lookup_foldl_regionsStep {ρ : Type} (ign : StringSet)
    (l : List (Sigma (fun _ : Int => ρ))) (hl : l.NodupKeys) (acc : RegionMap ρ) (id : Int) :
    (l.foldl (regionsStep ign) acc).lookup id =
      if id ∈ l.keys ∧ SprintfD id ∉ ign then l.dlookup id else acc.lookup id := by
  induction l generalizing acc with
  | nil => simp
  | cons e l ih =>
    obtain ⟨k, v⟩ := e
    rw [List.nodupKeys_cons] at hl
    rw [List.foldl_cons, ih hl.2]
    by_cases he : k = id
    · subst he
      have hk : k ∉ l.keys := hl.1
      by_cases hi : SprintfD k ∈ ign
      · have h1 : (ign.lookup (SprintfD k)).isSome = true := AList.lookup_isSome.2 hi
        simp [hk, hi, regionsStep, h1]
      · have h1 : ¬ (ign.lookup (SprintfD k)).isSome = true := fun h => hi (AList.lookup_isSome.1 h)
        simp [hk, hi, regionsStep, h1]
    · have hstep : (regionsStep ign acc ⟨k, v⟩).lookup id = acc.lookup id := by
        unfold regionsStep
        split
        · rfl
        · exact AList.lookup_insert_ne (Ne.symm he)
      simp [hstep, Ne.symm he]


/-! ### Decimal rendering -/

theorem digitChar_eq_zero : ∀ d : Nat, d < 10 → Nat.digitChar d = '0' → d = 0 := by
  decide

/-- With enough fuel the decimal digits of `n` start with `0` only when `n`
is zero, and then `0` is the only digit written. -/
theorem toDigitsCore_head (fuel : Nat) : ∀ (n : Nat) (ds : List Char), n < fuel →
    ∃ c tl, Nat.toDigitsCore 10 fuel n ds = c :: tl ∧ (c = '0' → n = 0 ∧ tl = ds) := by
  induction fuel with
  | zero => intro n ds h; omega
  | succ fuel ih =>
    intro n ds h
    rw [Nat.toDigitsCore]
    by_cases hq : n / 10 = 0
    · simp only [hq, if_true]
      refine ⟨_, _, rfl, fun h0 => ⟨?_, rfl⟩⟩
      have hlt : n < 10 := by omega
      have := digitChar_eq_zero (n % 10) (Nat.mod_lt n (by decide)) h0
      omega
    · simp only [hq, if_false]
      obtain ⟨c, tl, hc, hz⟩ := ih (n / 10) (Nat.digitChar (n % 10) :: ds) (by omega)
      exact ⟨c, tl, hc, fun h0 => absurd (hz h0).1 hq⟩

/-- The decimal rendering of an integer never has a leading `0` followed by
further characters. -/
theorem sprintfD_no_leading_zero (id : Int) :
    ¬ ((SprintfD id).data.head? = some '0' ∧ 1 < (SprintfD id).data.length) := by
  rintro ⟨hh, hl⟩
  cases id with
  | ofNat n =>
    obtain ⟨c, tl, hc, hz⟩ := toDigitsCore_head (n + 1) n [] (Nat.lt_succ_self n)
    have hd : (SprintfD (Int.ofNat n)).data = c :: tl := by
      rw [← hc]; rfl
    rw [hd] at hh hl
    simp only [List.head?_cons, Option.some.injEq] at hh
    obtain ⟨-, rfl⟩ := hz hh
    simp at hl
  | negSucc n =>
    have hd : (SprintfD (Int.negSucc n)).data = '-' :: (toString (n + 1)).data := by
      show ("-" ++ toString (Nat.succ n)).data = _
      rw [String.data_append]; rfl
    rw [hd] at hh
    simp only [List.head?_cons, Option.some.injEq] at hh
    exact absurd hh (by decide)

/-! ### The tag loop of `filterPeerDERP` -/

theorem tagScanStep_ignRegions (st : TagScan) (tag : String) :
    (tagScanStep st tag).ignRegions = ignRegionsStep st.ignRegions tag := by
  unfold tagScanStep ignRegionsStep
  by_cases h1 : HasPrefix tag "tag:ignore-derp-" = true <;>
    by_cases h2 : HasPrefix tag "tag:fallback-derp-" = true <;> simp [h1, h2]

/-- Both functions collect the same set of excluded regions from a tag
list. -/
theorem foldl_tagScanStep_ignRegions (tags : List String) (st : TagScan) :
    (tags.foldl tagScanStep st).ignRegions = tags.foldl ignRegionsStep st.ignRegions := by
  induction tags generalizing st with
  | nil => rfl
  | cons tag tags ih => rw [List.foldl_cons, List.foldl_cons, ih, tagScanStep_ignRegions]

theorem tagScanStep_defaultDerp_of_not (st : TagScan) (tag : String)
    (h : HasPrefix tag "tag:fallback-derp-" = false) :
    (tagScanStep st tag).defaultDerp = st.defaultDerp := by
  unfold tagScanStep
  by_cases h1 : HasPrefix tag "tag:ignore-derp-" = true <;> simp [h1, h]

theorem tagScanStep_defaultDerp_of_fallback (st : TagScan) (r : String) :
    (tagScanStep st ("tag:fallback-derp-" ++ r)).defaultDerp = r := by
  unfold tagScanStep
  simp only [hasPrefix_append, if_true, trimPrefix_append]

theorem foldl_tagScanStep_defaultDerp_of_not (tags : List String) (st : TagScan)
    (h : ∀ t ∈ tags, HasPrefix t "tag:fallback-derp-" = false) :
    (tags.foldl tagScanStep st).defaultDerp = st.defaultDerp := by
  induction tags generalizing st with
  | nil => rfl
  | cons tag tags ih =>
    rw [List.foldl_cons, ih _ (fun t ht => h t (List.mem_cons_of_mem _ ht)),
      tagScanStep_defaultDerp_of_not _ _ (h tag (List.mem_cons_self _ _))]

/-- The fallback left by the tag loop is the remainder of the last fallback
tag. -/
theorem tagScan_defaultDerp_of_last (pre post : List String) (r : String)
    (hpost : ∀ t ∈ post, HasPrefix t "tag:fallback-derp-" = false) :
    (tagScan ⟨pre ++ ("tag:fallback-derp-" ++ r) :: post⟩).defaultDerp = r := by
  unfold tagScan
  simp only [List.foldl_append, List.foldl_cons]
  rw [foldl_tagScanStep_defaultDerp_of_not _ _ hpost, tagScanStep_defaultDerp_of_fallback]

/-- The fallback left by the tag loop is `0` when no tag is a fallback
tag. -/
theorem tagScan_defaultDerp_of_none (machine : Machine)
    (h : ∀ t ∈ machine.ForcedTags, HasPrefix t "tag:fallback-derp-" = false) :
    (tagScan machine).defaultDerp = "0" := by
  unfold tagScan
  rw [foldl_tagScanStep_defaultDerp_of_not _ _ h]

/-- The keys of the set built by the tag loop of `filterPeerDERP` are the
remainders of the ignore tags. -/
theorem mem_tagScan_ignRegions (machine : Machine) (r : String) :
    r ∈ (tagScan machine).ignRegions ↔ ("tag:ignore-derp-" ++ r) ∈ machine.ForcedTags := by
  unfold tagScan
  rw [foldl_tagScanStep_ignRegions, mem_foldl_ignRegionsStep]
  simp

theorem tagScan_ignRegions_length (machine : Machine) :
    (tagScan machine).ignRegions.entries.length = 0 ↔
      ∀ r, ("tag:ignore-derp-" ++ r) ∉ machine.ForcedTags := by
  rw [entries_length_eq_zero_iff]
  simp only [mem_tagScan_ignRegions]

theorem ignRegions_length (machine : Machine) :
    (machine.ForcedTags.foldl ignRegionsStep ∅).entries.length = 0 ↔
      ∀ r, ("tag:ignore-derp-" ++ r) ∉ machine.ForcedTags := by
  rw [entries_length_eq_zero_iff]
  simp [mem_foldl_ignRegionsStep]

/-- What `filterPeerDERP` does to one peer when the machine carries an ignore
tag. -/
theorem filterPeerDERP_eq_map {α : Type} (machine : Machine) (nodePeers : List (Node α))
    (h : ∃ r, ("tag:ignore-derp-" ++ r) ∈ machine.ForcedTags) :
    filterPeerDERP machine nodePeers = nodePeers.map (peerStep (tagScan machine)) := by
  unfold filterPeerDERP
  have hne : ¬ (tagScan machine).ignRegions.entries.length = 0 := by
    rw [tagScan_ignRegions_length]
    obtain ⟨r, hr⟩ := h
    exact fun hall => hall r hr
  simp [hne]

theorem peerStep_of_mem {α : Type} (machine : Machine) (p : Node α)
    (h : ("tag:ignore-derp-" ++ TrimPrefix p.DERP derpMagicIP) ∈ machine.ForcedTags) :
    peerStep (tagScan machine) p =
      { p with DERP := derpMagicIP ++ (tagScan machine).defaultDerp } := by
  unfold peerStep
  have : ((tagScan machine).ignRegions.lookup (TrimPrefix p.DERP derpMagicIP)).isSome = true :=
    AList.lookup_isSome.2 ((mem_tagScan_ignRegions _ _).2 h)
  simp [this]

theorem peerStep_of_not_mem {α : Type} (machine : Machine) (p : Node α)
    (h : ("tag:ignore-derp-" ++ TrimPrefix p.DERP derpMagicIP) ∉ machine.ForcedTags) :
    peerStep (tagScan machine) p = p := by
  unfold peerStep
  have : ¬ ((tagScan machine).ignRegions.lookup (TrimPrefix p.DERP derpMagicIP)).isSome = true :=
    fun hs => h ((mem_tagScan_ignRegions _ _).1 (AList.lookup_isSome.1 hs))
  simp [this]


/-! ### Results of the two functions -/

theorem exists_remainder_iff (tags : List String) (p : String) :
    (∃ r : String, (p ++ r) ∈ tags) ↔ ∃ tag ∈ tags, HasPrefix tag p = true := by
  constructor
  · rintro ⟨r, hr⟩
    exact ⟨_, hr, hasPrefix_append p r⟩
  · rintro ⟨tag, ht, hp⟩
    obtain ⟨r, rfl⟩ := (hasPrefix_iff tag p).1 hp
    exact ⟨r, ht⟩

theorem forall_not_remainder_iff (tags : List String) (p : String) :
    (∀ r : String, (p ++ r) ∉ tags) ↔ ∀ tag ∈ tags, HasPrefix tag p = false := by
  constructor
  · intro h tag ht
    by_contra hp
    rw [Bool.not_eq_false] at hp
    obtain ⟨r, rfl⟩ := (hasPrefix_iff tag p).1 hp
    exact h r ht
  · intro h r hr
    have := h _ hr
    rw [hasPrefix_append] at this
    exact Bool.noConfusion this

/-- Reading a key of the map returned by `getDERPMapByMachine` for a machine
that carries an ignore tag. -/
theorem getDERPMapByMachine_lookup {ρ : Type} (derpMap : DERPMap ρ) (machine : Machine)
    (h : ∃ r : String, ("tag:ignore-derp-" ++ r) ∈ machine.ForcedTags) (id : Int) :
    (getDERPMapByMachine derpMap machine).Regions.lookup id =
      if ("tag:ignore-derp-" ++ SprintfD id) ∈ machine.ForcedTags then none
      else derpMap.Regions.lookup id := by
  have hne : ¬ (machine.ForcedTags.foldl ignRegionsStep ∅).entries.length = 0 := by
    rw [ignRegions_length]
    obtain ⟨r, hr⟩ := h
    exact fun hall => hall r hr
  unfold getDERPMapByMachine
  simp only [hne, if_false]
  rw [lookup_foldl_regionsStep _ _ derpMap.Regions.nodupKeys]
  have hmem : SprintfD id ∈ machine.ForcedTags.foldl ignRegionsStep ∅ ↔
      ("tag:ignore-derp-" ++ SprintfD id) ∈ machine.ForcedTags := by
    rw [mem_foldl_ignRegionsStep]; simp
  by_cases hi : ("tag:ignore-derp-" ++ SprintfD id) ∈ machine.ForcedTags
  · have hi2 := hmem.2 hi
    simp [hi, hi2]
  · have hi2 : SprintfD id ∉ machine.ForcedTags.foldl ignRegionsStep ∅ := fun hx => hi (hmem.1 hx)
    by_cases hk : id ∈ derpMap.Regions.entries.keys
    · simp [hi, hi2, hk, AList.lookup]
    · have : derpMap.Regions.lookup id = none := AList.lookup_eq_none.2 hk
      simp [hi, hi2, hk, this]

theorem getDERPMapByMachine_omit {ρ : Type} (derpMap : DERPMap ρ) (machine : Machine) :
    (getDERPMapByMachine derpMap machine).OmitDefaultRegions = derpMap.OmitDefaultRegions := by
  unfold getDERPMapByMachine
  dsimp only
  split <;> rfl

/-! ## Properties of `getDERPMapByMachine` -/

/-- C1. For a machine with at least one tag of prefix `tag:ignore-derp-`, the
map returned by `getDERPMapByMachine` has a key `id` exactly when `id` is a
key of the shared map and the decimal rendering of `id` is not the remainder
of an ignore tag; a retained key has the value it has in the shared map; and
`OmitDefaultRegions` is that of the shared map. -/
theorem getDERPMapByMachine_filtered {ρ : Type} (derpMap : DERPMap ρ) (machine : Machine)
    (h : ∃ tag ∈ machine.ForcedTags, HasPrefix tag "tag:ignore-derp-" = true) :
    (∀ id : Int, id ∈ (getDERPMapByMachine derpMap machine).Regions ↔
      (id ∈ derpMap.Regions ∧
        ∀ tag ∈ machine.ForcedTags, HasPrefix tag "tag:ignore-derp-" = true →
          TrimPrefix tag "tag:ignore-derp-" ≠ SprintfD id)) ∧
    (∀ id : Int, id ∈ (getDERPMapByMachine derpMap machine).Regions →
      (getDERPMapByMachine derpMap machine).Regions.lookup id = derpMap.Regions.lookup id) ∧
    (getDERPMapByMachine derpMap machine).OmitDefaultRegions = derpMap.OmitDefaultRegions := by
  have h1 := (exists_remainder_iff _ _).2 h
  have hrem : ∀ id : Int, ("tag:ignore-derp-" ++ SprintfD id) ∈ machine.ForcedTags ↔
      ¬ ∀ tag ∈ machine.ForcedTags, HasPrefix tag "tag:ignore-derp-" = true →
          TrimPrefix tag "tag:ignore-derp-" ≠ SprintfD id := by
    intro id
    constructor
    · intro hm hall
      exact hall _ hm (hasPrefix_append _ _) (trimPrefix_append _ _)
    · intro hn
      by_contra hm
      apply hn
      intro tag ht hp heq
      apply hm
      rw [← heq, append_trimPrefix _ _ hp]
      exact ht
  have hkey : ∀ id : Int, id ∈ (getDERPMapByMachine derpMap machine).Regions ↔
      (id ∈ derpMap.Regions ∧ ("tag:ignore-derp-" ++ SprintfD id) ∉ machine.ForcedTags) := by
    intro id
    rw [← AList.lookup_isSome, getDERPMapByMachine_lookup derpMap machine h1 id,
      ← AList.lookup_isSome]
    by_cases hi : ("tag:ignore-derp-" ++ SprintfD id) ∈ machine.ForcedTags <;> simp [hi]
  refine ⟨?_, ?_, getDERPMapByMachine_omit derpMap machine⟩
  · intro id
    rw [hkey, hrem, not_not]
  · intro id hid
    rw [getDERPMapByMachine_lookup derpMap machine h1 id, if_neg ((hkey id).1 hid).2]

/-- C1, at a map with regions 1, 3 and 4 and the tags `tag:ignore-derp-3`,
`tag:x`: region 3 goes, regions 1 and 4 stay with their values. -/
theorem getDERPMapByMachine_filtered_witness :
    (∃ tag ∈ (Machine.mk ["tag:ignore-derp-3", "tag:x"]).ForcedTags,
      HasPrefix tag "tag:ignore-derp-" = true) ∧
    (3 : Int) ∉ (getDERPMapByMachine
      (DERPMap.mk (((∅ : RegionMap String).insert 1 "a").insert 3 "c" |>.insert 4 "d") true)
      (Machine.mk ["tag:ignore-derp-3", "tag:x"])).Regions ∧
    (1 : Int) ∈ (getDERPMapByMachine
      (DERPMap.mk (((∅ : RegionMap String).insert 1 "a").insert 3 "c" |>.insert 4 "d") true)
      (Machine.mk ["tag:ignore-derp-3", "tag:x"])).Regions ∧
    (getDERPMapByMachine
      (DERPMap.mk (((∅ : RegionMap String).insert 1 "a").insert 3 "c" |>.insert 4 "d") true)
      (Machine.mk ["tag:ignore-derp-3", "tag:x"])).OmitDefaultRegions = true := by
  have hyp : ∃ tag ∈ (Machine.mk ["tag:ignore-derp-3", "tag:x"]).ForcedTags,
      HasPrefix tag "tag:ignore-derp-" = true := ⟨"tag:ignore-derp-3", by decide, by decide⟩
  have key := getDERPMapByMachine_filtered
    (DERPMap.mk (((∅ : RegionMap String).insert 1 "a").insert 3 "c" |>.insert 4 "d") true)
    (Machine.mk ["tag:ignore-derp-3", "tag:x"]) hyp
  refine ⟨hyp, ?_, ?_, key.2.2⟩
  · rw [key.1 3]
    rintro ⟨-, hall⟩
    exact hall "tag:ignore-derp-3" (by decide) (by decide) (by decide)
  · rw [key.1 1]
    refine ⟨by decide, ?_⟩
    decide

/-- C2. For a machine none of whose tags has the prefix `tag:ignore-derp-`,
whatever other tags it carries, `getDERPMapByMachine` returns the shared map
itself. -/
theorem getDERPMapByMachine_unfiltered {ρ : Type} (derpMap : DERPMap ρ) (machine : Machine)
    (h : ∀ tag ∈ machine.ForcedTags, HasPrefix tag "tag:ignore-derp-" = false) :
    getDERPMapByMachine derpMap machine = derpMap := by
  unfold getDERPMapByMachine
  have h0 := (ignRegions_length machine).2 ((forall_not_remainder_iff _ _).2 h)
  simp [h0]

/-- C2, at a machine that carries a fallback tag and an unrelated tag. -/
theorem getDERPMapByMachine_unfiltered_witness :
    (∀ tag ∈ (Machine.mk ["tag:fallback-derp-7", "tag:server"]).ForcedTags,
      HasPrefix tag "tag:ignore-derp-" = false) ∧
    getDERPMapByMachine (DERPMap.mk (((∅ : RegionMap String).insert 1 "a").insert 7 "g") false)
      (Machine.mk ["tag:fallback-derp-7", "tag:server"]) =
      DERPMap.mk (((∅ : RegionMap String).insert 1 "a").insert 7 "g") false :=
  ⟨by decide, getDERPMapByMachine_unfiltered _ _ (by decide)⟩


/-! ## Properties of `filterPeerDERP` -/

/-- The fallback left by the tag loop, for a fallback described from the tag
list: `0` when no tag is a fallback tag, the remainder of the last fallback
tag otherwise. -/
theorem tagScan_defaultDerp_eq (machine : Machine) (fallback : String)
    (hfb : ((∀ tag ∈ machine.ForcedTags, HasPrefix tag "tag:fallback-derp-" = false) ∧
        fallback = "0") ∨
      ∃ pre post : List String,
        machine.ForcedTags = pre ++ ("tag:fallback-derp-" ++ fallback) :: post ∧
        ∀ tag ∈ post, HasPrefix tag "tag:fallback-derp-" = false) :
    (tagScan machine).defaultDerp = fallback := by
  rcases hfb with ⟨hnone, rfl⟩ | ⟨pre, post, htags, hpost⟩
  · exact tagScan_defaultDerp_of_none machine hnone
  · obtain ⟨tags⟩ := machine
    simp only at htags
    subst htags
    exact tagScan_defaultDerp_of_last pre post fallback hpost

/-- The peer at position `i` after `filterPeerDERP`, for a machine that
carries an ignore tag. -/
theorem filterPeerDERP_getElem_peerStep {α : Type} (machine : Machine) (nodePeers : List (Node α))
    (h : ∃ tag ∈ machine.ForcedTags, HasPrefix tag "tag:ignore-derp-" = true)
    (i : Nat) (p : Node α) (hp : nodePeers[i]? = some p) :
    (filterPeerDERP machine nodePeers)[i]? = some (peerStep (tagScan machine) p) := by
  rw [filterPeerDERP_eq_map machine nodePeers ((exists_remainder_iff _ _).2 h),
    List.getElem?_map, hp]
  rfl

/-- C3. For a machine with at least one ignore tag, a peer whose `DERP` is
`127.3.3.40:` followed by `s` ends with `DERP = 127.3.3.40:` followed by the
fallback when `s` is the remainder of an ignore tag, and is left as it was
when `s` is not such a remainder.  The fallback is `0` when no tag has the
prefix `tag:fallback-derp-` and the remainder of the last such tag
otherwise. -/
theorem filterPeerDERP_redirects {α : Type} (machine : Machine) (nodePeers : List (Node α))
    (fallback : String)
    (hign : ∃ tag ∈ machine.ForcedTags, HasPrefix tag "tag:ignore-derp-" = true)
    (hfb : ((∀ tag ∈ machine.ForcedTags, HasPrefix tag "tag:fallback-derp-" = false) ∧
        fallback = "0") ∨
      ∃ pre post : List String,
        machine.ForcedTags = pre ++ ("tag:fallback-derp-" ++ fallback) :: post ∧
        ∀ tag ∈ post, HasPrefix tag "tag:fallback-derp-" = false)
    (i : Nat) (p : Node α) (s : String) (hp : nodePeers[i]? = some p)
    (hs : p.DERP = "127.3.3.40:" ++ s) :
    (("tag:ignore-derp-" ++ s) ∈ machine.ForcedTags →
      (filterPeerDERP machine nodePeers)[i]? =
        some { p with DERP := "127.3.3.40:" ++ fallback }) ∧
    (("tag:ignore-derp-" ++ s) ∉ machine.ForcedTags →
      (filterPeerDERP machine nodePeers)[i]? = some p) := by
  have htrim : TrimPrefix p.DERP derpMagicIP = s := by
    rw [hs]; exact trimPrefix_append _ _
  rw [filterPeerDERP_getElem_peerStep machine nodePeers hign i p hp]
  constructor
  · intro hmem
    rw [peerStep_of_mem machine p (by rw [htrim]; exact hmem),
      tagScan_defaultDerp_eq machine fallback hfb]
    rfl
  · intro hmem
    rw [peerStep_of_not_mem machine p (by rw [htrim]; exact hmem)]

/-- C3, at the tags `tag:ignore-derp-3`, `tag:fallback-derp-7`: the peer at
`127.3.3.40:3` moves to `127.3.3.40:7`, the peer at `127.3.3.40:4` stays. -/
theorem filterPeerDERP_redirects_witness :
    (filterPeerDERP (Machine.mk ["tag:ignore-derp-3", "tag:fallback-derp-7"])
        [Node.mk "127.3.3.40:3" 10, Node.mk "127.3.3.40:4" 11])[0]? =
      some (Node.mk "127.3.3.40:7" 10) ∧
    (filterPeerDERP (Machine.mk ["tag:ignore-derp-3", "tag:fallback-derp-7"])
        [Node.mk "127.3.3.40:3" 10, Node.mk "127.3.3.40:4" 11])[1]? =
      some (Node.mk "127.3.3.40:4" 11) :=
  ⟨(filterPeerDERP_redirects (Machine.mk ["tag:ignore-derp-3", "tag:fallback-derp-7"])
      [Node.mk "127.3.3.40:3" 10, Node.mk "127.3.3.40:4" 11] "7"
      ⟨"tag:ignore-derp-3", by decide, by decide⟩
      (Or.inr ⟨["tag:ignore-derp-3"], [], by decide, by decide⟩)
      0 (Node.mk "127.3.3.40:3" 10) "3" (by decide) (by decide)).1 (by decide),
   (filterPeerDERP_redirects (Machine.mk ["tag:ignore-derp-3", "tag:fallback-derp-7"])
      [Node.mk "127.3.3.40:3" 10, Node.mk "127.3.3.40:4" 11] "7"
      ⟨"tag:ignore-derp-3", by decide, by decide⟩
      (Or.inr ⟨["tag:ignore-derp-3"], [], by decide, by decide⟩)
      1 (Node.mk "127.3.3.40:4" 11) "4" (by decide) (by decide)).2 (by decide)⟩

/-- C4, the code at a peer whose `DERP` lacks the prefix `127.3.3.40:`: with
the tag `tag:ignore-derp-3`, the peer whose `DERP` is `3` is rewritten to
`127.3.3.40:0`. -/
theorem filterPeerDERP_rewrites_unprefixed :
    HasPrefix "3" "127.3.3.40:" = false ∧
    filterPeerDERP (Machine.mk ["tag:ignore-derp-3"]) [Node.mk "3" 10] =
      [Node.mk "127.3.3.40:0" 10] := by
  decide


/-- C5, as stated, fails: with the tags `tag:ignore-derp-5` and
`tag:ignore-derp-0` and no fallback tag, the peer at `127.3.3.40:5` is moved
to `127.3.3.40:0`, and `0` is the remainder of an ignore tag. -/
theorem filterPeerDERP_unsafe_counterexample :
    ∃ p ∈ filterPeerDERP (Machine.mk ["tag:ignore-derp-5", "tag:ignore-derp-0"])
        [Node.mk "127.3.3.40:5" 10],
      ∃ r : String,
        ("tag:ignore-derp-" ++ r) ∈
          (Machine.mk ["tag:ignore-derp-5", "tag:ignore-derp-0"]).ForcedTags ∧
        p.DERP = "127.3.3.40:" ++ r :=
  ⟨Node.mk "127.3.3.40:0" 10, by decide, "0", by decide, by decide⟩

/-- C5, amended. When the fallback (`0` when no tag has the prefix
`tag:fallback-derp-`, the remainder of the last such tag otherwise) is not
the remainder of an ignore tag, no peer's `DERP` after `filterPeerDERP` is
`127.3.3.40:` followed by the remainder of an ignore tag. -/
theorem filterPeerDERP_safe {α : Type} (machine : Machine) (nodePeers : List (Node α))
    (fallback : String)
    (hfb : ((∀ tag ∈ machine.ForcedTags, HasPrefix tag "tag:fallback-derp-" = false) ∧
        fallback = "0") ∨
      ∃ pre post : List String,
        machine.ForcedTags = pre ++ ("tag:fallback-derp-" ++ fallback) :: post ∧
        ∀ tag ∈ post, HasPrefix tag "tag:fallback-derp-" = false)
    (hsafe : ("tag:ignore-derp-" ++ fallback) ∉ machine.ForcedTags) :
    ∀ p ∈ filterPeerDERP machine nodePeers, ∀ r : String,
      ("tag:ignore-derp-" ++ r) ∈ machine.ForcedTags → p.DERP ≠ "127.3.3.40:" ++ r := by
  intro p hp r hr heq
  rw [filterPeerDERP_eq_map machine nodePeers ⟨r, hr⟩, List.mem_map] at hp
  obtain ⟨q, -, rfl⟩ := hp
  by_cases hq : ("tag:ignore-derp-" ++ TrimPrefix q.DERP derpMagicIP) ∈ machine.ForcedTags
  · rw [peerStep_of_mem machine q hq, tagScan_defaultDerp_eq machine fallback hfb] at heq
    have hrf : fallback = r := append_right_injective _ _ _ heq
    exact hsafe (hrf ▸ hr)
  · rw [peerStep_of_not_mem machine q hq] at heq
    apply hq
    rw [heq]
    show ("tag:ignore-derp-" ++ TrimPrefix (derpMagicIP ++ r) derpMagicIP) ∈ machine.ForcedTags
    rw [trimPrefix_append]
    exact hr

/-- C5 amended, at the tags `tag:ignore-derp-5`, `tag:fallback-derp-2`: the
peer that was at `127.3.3.40:5` is not there after the call. -/
theorem filterPeerDERP_safe_witness :
    ("tag:ignore-derp-" ++ "2") ∉
      (Machine.mk ["tag:ignore-derp-5", "tag:fallback-derp-2"]).ForcedTags ∧
    ∀ p ∈ filterPeerDERP (Machine.mk ["tag:ignore-derp-5", "tag:fallback-derp-2"])
        [Node.mk "127.3.3.40:5" 10, Node.mk "127.3.3.40:1" 11],
      p.DERP ≠ "127.3.3.40:" ++ "5" :=
  ⟨by decide, fun p hp =>
    filterPeerDERP_safe (Machine.mk ["tag:ignore-derp-5", "tag:fallback-derp-2"])
      [Node.mk "127.3.3.40:5" 10, Node.mk "127.3.3.40:1" 11] "2"
      (Or.inr ⟨["tag:ignore-derp-5"], [], by decide, by decide⟩) (by decide) p hp "5"
      (by decide)⟩

/-- C6. For a machine with at least one ignore tag and no tag of prefix
`tag:fallback-derp-`, every peer after the call is either as it was or has
`DERP` exactly `127.3.3.40:0` and all other fields as they were; and a peer
whose `DERP` was `127.3.3.40:` followed by the remainder of an ignore tag is
of the second kind. -/
theorem filterPeerDERP_default_fallback {α : Type} (machine : Machine)
    (nodePeers : List (Node α))
    (hign : ∃ tag ∈ machine.ForcedTags, HasPrefix tag "tag:ignore-derp-" = true)
    (hnone : ∀ tag ∈ machine.ForcedTags, HasPrefix tag "tag:fallback-derp-" = false)
    (i : Nat) (p : Node α) (hp : nodePeers[i]? = some p) :
    ((filterPeerDERP machine nodePeers)[i]? = some p ∨
      (filterPeerDERP machine nodePeers)[i]? = some { p with DERP := "127.3.3.40:0" }) ∧
    (∀ s : String, p.DERP = "127.3.3.40:" ++ s →
      ("tag:ignore-derp-" ++ s) ∈ machine.ForcedTags →
      (filterPeerDERP machine nodePeers)[i]? = some { p with DERP := "127.3.3.40:0" }) := by
  rw [filterPeerDERP_getElem_peerStep machine nodePeers hign i p hp]
  have hdef : ∀ q : Node α,
      ("tag:ignore-derp-" ++ TrimPrefix q.DERP derpMagicIP) ∈ machine.ForcedTags →
      peerStep (tagScan machine) q = { q with DERP := "127.3.3.40:0" } := by
    intro q hq
    rw [peerStep_of_mem machine q hq, tagScan_defaultDerp_of_none machine hnone]
    rfl
  constructor
  · by_cases hq : ("tag:ignore-derp-" ++ TrimPrefix p.DERP derpMagicIP) ∈ machine.ForcedTags
    · right; rw [hdef p hq]
    · left; rw [peerStep_of_not_mem machine p hq]
  · intro s hs hmem
    rw [hdef p]
    rw [hs]
    show ("tag:ignore-derp-" ++ TrimPrefix (derpMagicIP ++ s) derpMagicIP) ∈ machine.ForcedTags
    rw [trimPrefix_append]
    exact hmem

/-- C6, at the single tag `tag:ignore-derp-5`: the peer at `127.3.3.40:5`
ends at `127.3.3.40:0`. -/
theorem filterPeerDERP_default_fallback_witness :
    (filterPeerDERP (Machine.mk ["tag:ignore-derp-5"]) [Node.mk "127.3.3.40:5" 10])[0]? =
      some (Node.mk "127.3.3.40:0" 10) :=
  (filterPeerDERP_default_fallback (Machine.mk ["tag:ignore-derp-5"])
    [Node.mk "127.3.3.40:5" 10] ⟨"tag:ignore-derp-5", by decide, by decide⟩ (by decide)
    0 (Node.mk "127.3.3.40:5" 10) (by decide)).2 "5" (by decide) (by decide)

/-- C7. When the tag list is `pre`, then a fallback tag of remainder `r`,
then `post`, and no tag of `post` is a fallback tag, the fallback used for
rewriting is `r`, wherever the ignore tags sit in `pre` and `post`: the tag
loop leaves `defaultDerp = r`, and a peer whose `DERP` is `127.3.3.40:`
followed by the remainder of an ignore tag ends with `DERP = 127.3.3.40:`
followed by `r`. -/
theorem filterPeerDERP_last_fallback {α : Type} (machine : Machine)
    (nodePeers : List (Node α)) (pre post : List String) (r : String)
    (htags : machine.ForcedTags = pre ++ ("tag:fallback-derp-" ++ r) :: post)
    (hpost : ∀ tag ∈ post, HasPrefix tag "tag:fallback-derp-" = false) :
    (tagScan machine).defaultDerp = r ∧
    ∀ (i : Nat) (p : Node α) (s : String), nodePeers[i]? = some p →
      p.DERP = "127.3.3.40:" ++ s → ("tag:ignore-derp-" ++ s) ∈ machine.ForcedTags →
      (filterPeerDERP machine nodePeers)[i]? = some { p with DERP := "127.3.3.40:" ++ r } := by
  have hfb := tagScan_defaultDerp_eq machine r (Or.inr ⟨pre, post, htags, hpost⟩)
  refine ⟨hfb, ?_⟩
  intro i p s hp hs hmem
  rw [filterPeerDERP_getElem_peerStep machine nodePeers ⟨_, hmem, hasPrefix_append _ _⟩ i p hp,
    peerStep_of_mem machine p, hfb]
  · rfl
  · rw [hs]
    show ("tag:ignore-derp-" ++ TrimPrefix (derpMagicIP ++ s) derpMagicIP) ∈ machine.ForcedTags
    rw [trimPrefix_append]
    exact hmem

/-- C7, at the tags `tag:fallback-derp-1`, `tag:ignore-derp-3`,
`tag:fallback-derp-7`, `tag:ignore-derp-4`: both excluded peers move to
region 7, the last fallback. -/
theorem filterPeerDERP_last_fallback_witness :
    (filterPeerDERP
        (Machine.mk ["tag:fallback-derp-1", "tag:ignore-derp-3", "tag:fallback-derp-7",
          "tag:ignore-derp-4"])
        [Node.mk "127.3.3.40:4" 10, Node.mk "127.3.3.40:3" 11])[1]? =
      some (Node.mk "127.3.3.40:7" 11) :=
  (filterPeerDERP_last_fallback
    (Machine.mk ["tag:fallback-derp-1", "tag:ignore-derp-3", "tag:fallback-derp-7",
      "tag:ignore-derp-4"])
    [Node.mk "127.3.3.40:4" 10, Node.mk "127.3.3.40:3" 11]
    ["tag:fallback-derp-1", "tag:ignore-derp-3"] ["tag:ignore-derp-4"] "7"
    (by decide) (by decide)).2 1 (Node.mk "127.3.3.40:3" 11) "3" (by decide) (by decide)
    (by decide)

/-- C8. For a machine with no tag of prefix `tag:ignore-derp-`, fallback tags
or not, the peer list after `filterPeerDERP` is the peer list before it. -/
theorem filterPeerDERP_noop {α : Type} (machine : Machine) (nodePeers : List (Node α))
    (h : ∀ tag ∈ machine.ForcedTags, HasPrefix tag "tag:ignore-derp-" = false) :
    filterPeerDERP machine nodePeers = nodePeers := by
  unfold filterPeerDERP
  have h0 := (tagScan_ignRegions_length machine).2 ((forall_not_remainder_iff _ _).2 h)
  simp [h0]

/-- C8, at a machine that carries only a fallback tag and an unrelated
tag. -/
theorem filterPeerDERP_noop_witness :
    (∀ tag ∈ (Machine.mk ["tag:fallback-derp-7", "tag:server"]).ForcedTags,
      HasPrefix tag "tag:ignore-derp-" = false) ∧
    filterPeerDERP (Machine.mk ["tag:fallback-derp-7", "tag:server"])
        [Node.mk "127.3.3.40:3" 10, Node.mk "" 11] =
      [Node.mk "127.3.3.40:3" 10, Node.mk "" 11] :=
  ⟨by decide, filterPeerDERP_noop _ _ (by decide)⟩


/-! ## Exact matching of region identifiers -/

/-- C9. `getDERPMapByMachine` removes a region `id` of the shared map only
when some ignore tag's remainder is, character for character, the decimal
rendering of `id`.  In particular, when every ignore tag's remainder has a
leading `0` and more than one character (as in `tag:ignore-derp-03`), the
returned map holds every region of the shared map, with its value. -/
theorem getDERPMapByMachine_exact_match {ρ : Type} (derpMap : DERPMap ρ) (machine : Machine) :
    (∀ id : Int, id ∈ derpMap.Regions →
      id ∉ (getDERPMapByMachine derpMap machine).Regions →
      ∃ tag ∈ machine.ForcedTags, HasPrefix tag "tag:ignore-derp-" = true ∧
        TrimPrefix tag "tag:ignore-derp-" = SprintfD id) ∧
    ((∀ tag ∈ machine.ForcedTags, HasPrefix tag "tag:ignore-derp-" = true →
        (TrimPrefix tag "tag:ignore-derp-").data.head? = some '0' ∧
        1 < (TrimPrefix tag "tag:ignore-derp-").data.length) →
      ∀ id : Int, (getDERPMapByMachine derpMap machine).Regions.lookup id =
        derpMap.Regions.lookup id) := by
  by_cases hany : ∃ r : String, ("tag:ignore-derp-" ++ r) ∈ machine.ForcedTags
  · constructor
    · intro id hid hout
      rw [← AList.lookup_isSome, getDERPMapByMachine_lookup derpMap machine hany id] at hout
      by_cases hi : ("tag:ignore-derp-" ++ SprintfD id) ∈ machine.ForcedTags
      · exact ⟨_, hi, hasPrefix_append _ _, trimPrefix_append _ _⟩
      · rw [if_neg hi, AList.lookup_isSome] at hout
        exact absurd hid hout
    · intro hzero id
      rw [getDERPMapByMachine_lookup derpMap machine hany id, if_neg]
      intro hi
      have := hzero _ hi (hasPrefix_append _ _)
      rw [trimPrefix_append] at this
      exact sprintfD_no_leading_zero id this
  · have hnone : getDERPMapByMachine derpMap machine = derpMap := by
      unfold getDERPMapByMachine
      have h0 := (ignRegions_length machine).2 (not_exists.1 hany)
      simp [h0]
    rw [hnone]
    exact ⟨fun id hid hout => absurd hid hout, fun _ _ => rfl⟩

/-- C9, at the single ignore tag `tag:ignore-derp-03` and a map with regions
3 and 4: region 3 is still there. -/
theorem getDERPMapByMachine_exact_match_witness :
    (getDERPMapByMachine (DERPMap.mk (((∅ : RegionMap String).insert 3 "c").insert 4 "d") true)
      (Machine.mk ["tag:ignore-derp-03"])).Regions.lookup 3 = some "c" :=
  ((getDERPMapByMachine_exact_match
    (DERPMap.mk (((∅ : RegionMap String).insert 3 "c").insert 4 "d") true)
    (Machine.mk ["tag:ignore-derp-03"])).2 (by decide) 3).trans (by decide)

/-! ## Properties of `generateMapResponse` -/

/-- C10. When `generateMapResponse` calls `getValidPeers` and that call
fails with `e`, it returns a nil response together with `e`, and its calls
are `toNode` and `getValidPeers` only: `getMapResponseUserProfiles`,
`toNodes` and `getMapResponseDNSConfig` are not called. -/
theorem generateMapResponse_getValidPeers_error {ρ α δ φ σ υ τ ε : Type}
    (h : Headscale ρ δ φ σ) (c : Collaborators α δ υ τ ε) (mapRequest : MapRequest)
    (machine : Machine) (e : ε)
    (hcall : Call.getValidPeers machine ∈
      (generateMapResponse (ρ := ρ) (φ := φ) (σ := σ) h c mapRequest machine).calls)
    (hfail : c.getValidPeers machine = Except.error e) :
    (generateMapResponse h c mapRequest machine).response = none ∧
    (generateMapResponse h c mapRequest machine).err = some e ∧
    (generateMapResponse h c mapRequest machine).calls =
      [Call.toNode machine h.cfg.BaseDomain h.cfg.DNSConfig, Call.getValidPeers machine] ∧
    ∀ call ∈ (generateMapResponse h c mapRequest machine).calls,
      (∀ m ps, call ≠ Call.getMapResponseUserProfiles m ps) ∧
      (∀ ps b d, call ≠ Call.toNodes ps b d) ∧
      (∀ d b m ps, call ≠ Call.getMapResponseDNSConfig d b m ps) := by
  unfold generateMapResponse at hcall ⊢
  cases hnode : c.toNode machine h.cfg.BaseDomain h.cfg.DNSConfig with
  | error e1 =>
    rw [hnode] at hcall
    simp at hcall
  | ok node =>
    simp only [hfail]
    refine ⟨trivial, trivial, trivial, ?_⟩
    intro call hc
    simp only [List.mem_cons, List.mem_singleton, List.not_mem_nil, or_false] at hc
    rcases hc with rfl | rfl <;> simp

/-- C10, at collaborators where `toNode` succeeds and `getValidPeers` fails
with `db`: the result is nil with the error `db`, after two calls. -/
theorem generateMapResponse_getValidPeers_error_witness :
    (generateMapResponse (ρ := String) (φ := Unit) (σ := Unit)
        (Headscale.mk (DERPMap.mk ∅ false) (Config.mk "example.com" () true false) () ())
        (Collaborators.mk (fun _ _ _ => Except.ok (Node.mk "127.3.3.40:1" 0))
          (fun _ => Except.error "db") (fun _ _ => ()) (fun _ _ _ => Except.ok [])
          (fun d _ _ _ => d) (0 : Nat))
        (MapRequest.mk "host") (Machine.mk ["tag:ignore-derp-3"])).err = some "db" ∧
    (generateMapResponse (ρ := String) (φ := Unit) (σ := Unit)
        (Headscale.mk (DERPMap.mk ∅ false) (Config.mk "example.com" () true false) () ())
        (Collaborators.mk (fun _ _ _ => Except.ok (Node.mk "127.3.3.40:1" 0))
          (fun _ => Except.error "db") (fun _ _ => ()) (fun _ _ _ => Except.ok [])
          (fun d _ _ _ => d) (0 : Nat))
        (MapRequest.mk "host") (Machine.mk ["tag:ignore-derp-3"])).calls.length = 2 := by
  have key := generateMapResponse_getValidPeers_error (ρ := String) (φ := Unit) (σ := Unit)
    (Headscale.mk (DERPMap.mk ∅ false) (Config.mk "example.com" () true false) () ())
    (Collaborators.mk (fun _ _ _ => Except.ok (Node.mk "127.3.3.40:1" 0))
      (fun _ => Except.error "db") (fun _ _ => ()) (fun _ _ _ => Except.ok [])
      (fun d _ _ _ => d) (0 : Nat))
    (MapRequest.mk "host") (Machine.mk ["tag:ignore-derp-3"]) "db" (by decide) rfl
  exact ⟨key.2.1, by rw [key.2.2.1]; rfl⟩


/-! ## Auxiliary lemmas on the store -/

theorem modify_append_length {β : Type} (f : β → β) (l : List β) (x : β) :
    (l ++ [x]).modify f l.length = l ++ [f x] := by
  induction l with
  | nil => rfl
  | cons a l ih => simp [List.modify_succ_cons, ih]

/-- The loop over the regions, run on the store with the fresh map last,
builds in that map what the loop on values builds. -/
theorem foldl_regionsStepS {ρ : Type} (ign : StringSet) (maps : List (RegionMap ρ))
    (structs : List (Nat × Bool)) (l : List (Sigma (fun _ : Int => ρ))) (acc : RegionMap ρ) :
    l.foldl (regionsStepS ign maps.length) ⟨maps ++ [acc], structs⟩ =
      ⟨maps ++ [l.foldl (regionsStep ign) acc], structs⟩ := by
  induction l generalizing acc with
  | nil => rfl
  | cons e l ih =>
    rw [List.foldl_cons, List.foldl_cons, ← ih]
    congr 1
    unfold regionsStepS regionsStep Store.setRegion
    split
    · rfl
    · simp only [modify_append_length]

/-- Reading a pointer is not affected by allocations. -/
theorem readDERPMap_append {ρ : Type} (s : Store ρ) (p : Nat) (d : DERPMap ρ)
    (hd : s.readDERPMap p = some d) (ms : List (RegionMap ρ)) (ds : List (Nat × Bool)) :
    Store.readDERPMap ⟨s.regionMaps ++ ms, s.derpMaps ++ ds⟩ p = some d := by
  unfold Store.readDERPMap at hd ⊢
  cases h1 : s.derpMaps[p]? with
  | none => simp [h1] at hd
  | some x =>
    have hp : p < s.derpMaps.length := (List.getElem?_eq_some.1 h1).1
    simp only [h1] at hd
    cases h2 : s.regionMaps[x.1]? with
    | none => simp [h2] at hd
    | some m =>
      have hx : x.1 < s.regionMaps.length := (List.getElem?_eq_some.1 h2).1
      simp only [h2] at hd
      simp only [List.getElem?_append_left hp, h1, List.getElem?_append_left hx, h2]
      exact hd

/-- The result of `getDERPMapByMachine` on the store, for a valid pointer:
with no ignore tag the store and the pointer as they were, otherwise one new
map, holding the filtered regions, and one new struct. -/
theorem getDERPMapByMachineS_eq {ρ : Type} (s : Store ρ) (p : Nat) (machine : Machine)
    (d : DERPMap ρ) (hd : s.readDERPMap p = some d) :
    getDERPMapByMachineS s p machine =
      if (machine.ForcedTags.foldl ignRegionsStep ∅).entries.length = 0 then some (s, p)
      else some (⟨s.regionMaps ++ [(getDERPMapByMachine d machine).Regions],
        s.derpMaps ++ [(s.regionMaps.length, d.OmitDefaultRegions)]⟩, s.derpMaps.length) := by
  unfold getDERPMapByMachineS
  by_cases h0 : (machine.ForcedTags.foldl ignRegionsStep ∅).entries.length = 0
  · simp only [h0, if_true]
  · simp only [h0, if_false]
    have h1 : Store.readDERPMap ⟨s.regionMaps ++ [∅], s.derpMaps⟩ p = some d := by
      have := readDERPMap_append s p d hd [∅] []
      simpa using this
    rw [h1]
    simp only
    rw [foldl_regionsStepS]
    have h2 : Store.readDERPMap
        ⟨s.regionMaps ++ [d.Regions.entries.foldl
          (regionsStep (machine.ForcedTags.foldl ignRegionsStep ∅)) ∅], s.derpMaps⟩ p =
        some d := by
      have := readDERPMap_append s p d hd
        [d.Regions.entries.foldl (regionsStep (machine.ForcedTags.foldl ignRegionsStep ∅)) ∅] []
      simpa using this
    rw [h2]
    simp only [getDERPMapByMachine, h0, if_false]


/-! ## Auxiliary lemmas on `generateMapResponse` -/

/-- The run of `generateMapResponse` when the three fallible collaborators
succeed. -/
theorem generateMapResponse_of_ok {ρ α δ φ σ υ τ ε : Type} (h : Headscale ρ δ φ σ)
    (c : Collaborators α δ υ τ ε) (mapRequest : MapRequest) (machine : Machine)
    (node : Node α) (peers : List Machine) (nodePeers : List (Node α))
    (h1 : c.toNode machine h.cfg.BaseDomain h.cfg.DNSConfig = Except.ok node)
    (h2 : c.getValidPeers machine = Except.ok peers)
    (h3 : c.toNodes peers h.cfg.BaseDomain h.cfg.DNSConfig = Except.ok nodePeers) :
    generateMapResponse h c mapRequest machine =
      { calls :=
          [Call.toNode machine h.cfg.BaseDomain h.cfg.DNSConfig,
            Call.getValidPeers machine,
            Call.getMapResponseUserProfiles machine peers,
            Call.toNodes peers h.cfg.BaseDomain h.cfg.DNSConfig,
            Call.getMapResponseDNSConfig h.cfg.DNSConfig h.cfg.BaseDomain machine peers,
            Call.timeNow]
        response := some
          { KeepAlive := false
            Node := node
            DERPMap := getDERPMapByMachine h.DERPMap machine
            Peers := filterPeerDERP machine nodePeers
            DNSConfig :=
              c.getMapResponseDNSConfig h.cfg.DNSConfig h.cfg.BaseDomain machine peers
            Domain := h.cfg.BaseDomain
            CollectServices := "false"
            PacketFilter := h.aclRules
            UserProfiles := c.getMapResponseUserProfiles machine peers
            SSHPolicy := h.sshPolicy
            ControlTime := c.timeNow
            Debug :=
              { DERPRoute := "true"
                DisableLogTail := !h.cfg.LogTailEnabled
                RandomizeClientPort := h.cfg.RandomizeClientPort } }
        err := none } := by
  unfold generateMapResponse
  simp only [h1, h2, h3]

theorem generateMapResponse_of_toNode_error {ρ α δ φ σ υ τ ε : Type} (h : Headscale ρ δ φ σ)
    (c : Collaborators α δ υ τ ε) (mapRequest : MapRequest) (machine : Machine) (e : ε)
    (h1 : c.toNode machine h.cfg.BaseDomain h.cfg.DNSConfig = Except.error e) :
    generateMapResponse (ρ := ρ) (φ := φ) (σ := σ) h c mapRequest machine =
      { calls := [Call.toNode machine h.cfg.BaseDomain h.cfg.DNSConfig]
        response := none
        err := some e } := by
  unfold generateMapResponse
  simp only [h1]

theorem generateMapResponse_of_getValidPeers_error {ρ α δ φ σ υ τ ε : Type}
    (h : Headscale ρ δ φ σ) (c : Collaborators α δ υ τ ε) (mapRequest : MapRequest)
    (machine : Machine) (node : Node α) (e : ε)
    (h1 : c.toNode machine h.cfg.BaseDomain h.cfg.DNSConfig = Except.ok node)
    (h2 : c.getValidPeers machine = Except.error e) :
    generateMapResponse (ρ := ρ) (φ := φ) (σ := σ) h c mapRequest machine =
      { calls := [Call.toNode machine h.cfg.BaseDomain h.cfg.DNSConfig,
          Call.getValidPeers machine]
        response := none
        err := some e } := by
  unfold generateMapResponse
  simp only [h1, h2]

theorem generateMapResponse_of_toNodes_error {ρ α δ φ σ υ τ ε : Type}
    (h : Headscale ρ δ φ σ) (c : Collaborators α δ υ τ ε) (mapRequest : MapRequest)
    (machine : Machine) (node : Node α) (peers : List Machine) (e : ε)
    (h1 : c.toNode machine h.cfg.BaseDomain h.cfg.DNSConfig = Except.ok node)
    (h2 : c.getValidPeers machine = Except.ok peers)
    (h3 : c.toNodes peers h.cfg.BaseDomain h.cfg.DNSConfig = Except.error e) :
    generateMapResponse (ρ := ρ) (φ := φ) (σ := σ) h c mapRequest machine =
      { calls := [Call.toNode machine h.cfg.BaseDomain h.cfg.DNSConfig,
          Call.getValidPeers machine,
          Call.getMapResponseUserProfiles machine peers,
          Call.toNodes peers h.cfg.BaseDomain h.cfg.DNSConfig]
        response := none
        err := some e } := by
  unfold generateMapResponse
  simp only [h1, h2, h3]

/-! ## Further properties of `generateMapResponse` -/

/-- C11. `generateMapResponse` returns an error exactly when `toNode`, or
(after it) `getValidPeers`, or (after both) `toNodes` fails; the error is
that of the first collaborator that fails, in that order, and the response
is then nil; when all three succeed the response is not nil and the error is
nil.  In every case exactly one of response and error is nil. -/
theorem generateMapResponse_fails_iff {ρ α δ φ σ υ τ ε : Type} (h : Headscale ρ δ φ σ)
    (c : Collaborators α δ υ τ ε) (mapRequest : MapRequest) (machine : Machine) :
    (∀ e, c.toNode machine h.cfg.BaseDomain h.cfg.DNSConfig = Except.error e →
      (generateMapResponse (ρ := ρ) (φ := φ) (σ := σ) h c mapRequest machine).response = none ∧
      (generateMapResponse (ρ := ρ) (φ := φ) (σ := σ) h c mapRequest machine).err = some e) ∧
    (∀ node e, c.toNode machine h.cfg.BaseDomain h.cfg.DNSConfig = Except.ok node →
      c.getValidPeers machine = Except.error e →
      (generateMapResponse (ρ := ρ) (φ := φ) (σ := σ) h c mapRequest machine).response = none ∧
      (generateMapResponse (ρ := ρ) (φ := φ) (σ := σ) h c mapRequest machine).err = some e) ∧
    (∀ node peers e, c.toNode machine h.cfg.BaseDomain h.cfg.DNSConfig = Except.ok node →
      c.getValidPeers machine = Except.ok peers →
      c.toNodes peers h.cfg.BaseDomain h.cfg.DNSConfig = Except.error e →
      (generateMapResponse (ρ := ρ) (φ := φ) (σ := σ) h c mapRequest machine).response = none ∧
      (generateMapResponse (ρ := ρ) (φ := φ) (σ := σ) h c mapRequest machine).err = some e) ∧
    (∀ node peers nodePeers,
      c.toNode machine h.cfg.BaseDomain h.cfg.DNSConfig = Except.ok node →
      c.getValidPeers machine = Except.ok peers →
      c.toNodes peers h.cfg.BaseDomain h.cfg.DNSConfig = Except.ok nodePeers →
      (generateMapResponse (ρ := ρ) (φ := φ) (σ := σ) h c mapRequest machine).response ≠ none ∧
      (generateMapResponse (ρ := ρ) (φ := φ) (σ := σ) h c mapRequest machine).err = none) ∧
    ((generateMapResponse (ρ := ρ) (φ := φ) (σ := σ) h c mapRequest machine).err ≠ none ↔
      ((∃ e, c.toNode machine h.cfg.BaseDomain h.cfg.DNSConfig = Except.error e) ∨
        (∃ e, c.getValidPeers machine = Except.error e) ∨
        (∃ peers e, c.getValidPeers machine = Except.ok peers ∧
          c.toNodes peers h.cfg.BaseDomain h.cfg.DNSConfig = Except.error e))) ∧
    ((generateMapResponse (ρ := ρ) (φ := φ) (σ := σ) h c mapRequest machine).response = none ↔
      (generateMapResponse (ρ := ρ) (φ := φ) (σ := σ) h c mapRequest machine).err ≠ none) := by
  refine ⟨?_, ?_, ?_, ?_, ?_, ?_⟩
  · intro e h1
    rw [generateMapResponse_of_toNode_error h c mapRequest machine e h1]
    exact ⟨rfl, rfl⟩
  · intro node e h1 h2
    rw [generateMapResponse_of_getValidPeers_error h c mapRequest machine node e h1 h2]
    exact ⟨rfl, rfl⟩
  · intro node peers e h1 h2 h3
    rw [generateMapResponse_of_toNodes_error h c mapRequest machine node peers e h1 h2 h3]
    exact ⟨rfl, rfl⟩
  · intro node peers nodePeers h1 h2 h3
    rw [generateMapResponse_of_ok h c mapRequest machine node peers nodePeers h1 h2 h3]
    exact ⟨by simp, rfl⟩
  · cases h1 : c.toNode machine h.cfg.BaseDomain h.cfg.DNSConfig with
    | error e =>
      rw [generateMapResponse_of_toNode_error h c mapRequest machine e h1]
      simp
    | ok node =>
      cases h2 : c.getValidPeers machine with
      | error e =>
        rw [generateMapResponse_of_getValidPeers_error h c mapRequest machine node e h1 h2]
        simp
      | ok peers =>
        cases h3 : c.toNodes peers h.cfg.BaseDomain h.cfg.DNSConfig with
        | error e =>
          rw [generateMapResponse_of_toNodes_error h c mapRequest machine node peers e h1 h2 h3]
          simp [h3]
        | ok nodePeers =>
          rw [generateMapResponse_of_ok h c mapRequest machine node peers nodePeers h1 h2 h3]
          simp [h3]
  · cases h1 : c.toNode machine h.cfg.BaseDomain h.cfg.DNSConfig with
    | error e =>
      rw [generateMapResponse_of_toNode_error h c mapRequest machine e h1]
      simp
    | ok node =>
      cases h2 : c.getValidPeers machine with
      | error e =>
        rw [generateMapResponse_of_getValidPeers_error h c mapRequest machine node e h1 h2]
        simp
      | ok peers =>
        cases h3 : c.toNodes peers h.cfg.BaseDomain h.cfg.DNSConfig with
        | error e =>
          rw [generateMapResponse_of_toNodes_error h c mapRequest machine node peers e h1 h2 h3]
          simp
        | ok nodePeers =>
          rw [generateMapResponse_of_ok h c mapRequest machine node peers nodePeers h1 h2 h3]
          simp


/-- C12. When the three fallible collaborators succeed, the response's
`Peers` are the nodes returned by `toNodes` on the peers of `getValidPeers`,
after `filterPeerDERP` with the requesting machine; its `DERPMap` is
`getDERPMapByMachine` of the same machine; its user profiles and its DNS
configuration are what their collaborators return on the peers of
`getValidPeers`, whatever `toNodes` returned and whatever the redirection
did. -/
theorem generateMapResponse_views {ρ α δ φ σ υ τ ε : Type} (h : Headscale ρ δ φ σ)
    (c : Collaborators α δ υ τ ε) (mapRequest : MapRequest) (machine : Machine)
    (node : Node α) (peers : List Machine) (nodePeers : List (Node α))
    (h1 : c.toNode machine h.cfg.BaseDomain h.cfg.DNSConfig = Except.ok node)
    (h2 : c.getValidPeers machine = Except.ok peers)
    (h3 : c.toNodes peers h.cfg.BaseDomain h.cfg.DNSConfig = Except.ok nodePeers) :
    ∃ resp, (generateMapResponse h c mapRequest machine).response = some resp ∧
      resp.Peers = filterPeerDERP machine nodePeers ∧
      resp.DERPMap = getDERPMapByMachine h.DERPMap machine ∧
      resp.UserProfiles = c.getMapResponseUserProfiles machine peers ∧
      resp.DNSConfig =
        c.getMapResponseDNSConfig h.cfg.DNSConfig h.cfg.BaseDomain machine peers ∧
      Call.getMapResponseUserProfiles machine peers ∈
        (generateMapResponse h c mapRequest machine).calls ∧
      Call.getMapResponseDNSConfig h.cfg.DNSConfig h.cfg.BaseDomain machine peers ∈
        (generateMapResponse h c mapRequest machine).calls := by
  rw [generateMapResponse_of_ok h c mapRequest machine node peers nodePeers h1 h2 h3]
  exact ⟨_, rfl, rfl, rfl, rfl, rfl, by simp, by simp⟩

/-- C12, at a machine tagged `tag:ignore-derp-3`, `tag:fallback-derp-7` with
one peer converted to a node at `127.3.3.40:3`: the response lists the peer
at `127.3.3.40:7`. -/
theorem generateMapResponse_views_witness :
    ∃ resp, (generateMapResponse (ρ := String) (φ := Unit) (σ := Unit)
        (Headscale.mk (DERPMap.mk ((∅ : RegionMap String).insert 3 "c") false)
          (Config.mk "example.com" () true false) () ())
        (Collaborators.mk (fun _ _ _ => Except.ok (Node.mk "127.3.3.40:1" 0))
          (fun _ => (Except.ok [Machine.mk []] : Except String (List Machine)))
          (fun _ _ => ()) (fun _ _ _ => Except.ok [Node.mk "127.3.3.40:3" 1])
          (fun d _ _ _ => d) (0 : Nat))
        (MapRequest.mk "host")
        (Machine.mk ["tag:ignore-derp-3", "tag:fallback-derp-7"])).response = some resp ∧
      resp.Peers = [Node.mk "127.3.3.40:7" 1] := by
  obtain ⟨resp, hr, hp, -⟩ := generateMapResponse_views (ρ := String) (φ := Unit) (σ := Unit)
    (Headscale.mk (DERPMap.mk ((∅ : RegionMap String).insert 3 "c") false)
      (Config.mk "example.com" () true false) () ())
    (Collaborators.mk (fun _ _ _ => Except.ok (Node.mk "127.3.3.40:1" 0))
      (fun _ => (Except.ok [Machine.mk []] : Except String (List Machine)))
      (fun _ _ => ()) (fun _ _ _ => Except.ok [Node.mk "127.3.3.40:3" 1])
      (fun d _ _ _ => d) (0 : Nat))
    (MapRequest.mk "host") (Machine.mk ["tag:ignore-derp-3", "tag:fallback-derp-7"])
    (Node.mk "127.3.3.40:1" 0) [Machine.mk []] [Node.mk "127.3.3.40:3" 1] rfl rfl rfl
  exact ⟨resp, hr, hp.trans (by decide)⟩

/-- C15. When the three fallible collaborators succeed, the response has
`KeepAlive = false`, `CollectServices = "false"`, `Domain = cfg.BaseDomain`,
`PacketFilter = h.aclRules`, `SSHPolicy = h.sshPolicy`, `Node` the result of
`toNode`, `UserProfiles` and `DNSConfig` the results of their collaborators,
`Debug.DERPRoute = "true"`, `Debug.DisableLogTail = !cfg.LogTail.Enabled` and
`Debug.RandomizeClientPort = cfg.RandomizeClientPort`. -/
theorem generateMapResponse_fields {ρ α δ φ σ υ τ ε : Type} (h : Headscale ρ δ φ σ)
    (c : Collaborators α δ υ τ ε) (mapRequest : MapRequest) (machine : Machine)
    (node : Node α) (peers : List Machine) (nodePeers : List (Node α))
    (h1 : c.toNode machine h.cfg.BaseDomain h.cfg.DNSConfig = Except.ok node)
    (h2 : c.getValidPeers machine = Except.ok peers)
    (h3 : c.toNodes peers h.cfg.BaseDomain h.cfg.DNSConfig = Except.ok nodePeers) :
    ∃ resp, (generateMapResponse h c mapRequest machine).response = some resp ∧
      resp.KeepAlive = false ∧
      resp.CollectServices = "false" ∧
      resp.Domain = h.cfg.BaseDomain ∧
      resp.PacketFilter = h.aclRules ∧
      resp.SSHPolicy = h.sshPolicy ∧
      resp.Node = node ∧
      resp.UserProfiles = c.getMapResponseUserProfiles machine peers ∧
      resp.DNSConfig =
        c.getMapResponseDNSConfig h.cfg.DNSConfig h.cfg.BaseDomain machine peers ∧
      resp.Debug.DERPRoute = "true" ∧
      resp.Debug.DisableLogTail = !h.cfg.LogTailEnabled ∧
      resp.Debug.RandomizeClientPort = h.cfg.RandomizeClientPort := by
  rw [generateMapResponse_of_ok h c mapRequest machine node peers nodePeers h1 h2 h3]
  exact ⟨_, rfl, rfl, rfl, rfl, rfl, rfl, rfl, rfl, rfl, rfl, rfl, rfl⟩

/-- C15, at a configuration with the log tail enabled and the base domain
`example.com`. -/
theorem generateMapResponse_fields_witness :
    ∃ resp, (generateMapResponse (ρ := String) (φ := Nat) (σ := Nat)
        (Headscale.mk (DERPMap.mk ∅ false) (Config.mk "example.com" () true false) 5 6)
        (Collaborators.mk (fun _ _ _ => Except.ok (Node.mk "127.3.3.40:1" 0))
          (fun _ => (Except.ok [] : Except String (List Machine)))
          (fun _ _ => ()) (fun _ _ _ => Except.ok [])
          (fun d _ _ _ => d) (0 : Nat))
        (MapRequest.mk "host") (Machine.mk [])).response = some resp ∧
      resp.KeepAlive = false ∧ resp.CollectServices = "false" ∧
      resp.Domain = "example.com" ∧ resp.PacketFilter = 5 ∧ resp.SSHPolicy = 6 ∧
      resp.Debug = Debug.mk "true" false false := by
  obtain ⟨resp, hr, hk, hc, hd, hp, hs, -, -, -, g1, g2, g3⟩ :=
    generateMapResponse_fields (ρ := String) (φ := Nat) (σ := Nat)
      (Headscale.mk (DERPMap.mk ∅ false) (Config.mk "example.com" () true false) 5 6)
      (Collaborators.mk (fun _ _ _ => Except.ok (Node.mk "127.3.3.40:1" 0))
        (fun _ => (Except.ok [] : Except String (List Machine)))
        (fun _ _ => ()) (fun _ _ _ => Except.ok [])
        (fun d _ _ _ => d) (0 : Nat))
      (MapRequest.mk "host") (Machine.mk []) (Node.mk "127.3.3.40:1" 0) [] [] rfl rfl rfl
  refine ⟨resp, hr, hk, hc, hd, hp, hs, ?_⟩
  cases hdbg : resp.Debug with
  | mk a b c =>
    rw [hdbg] at g1 g2 g3
    simp only at g1 g2 g3
    rw [g1, g2, g3]
    rfl


/-- The map built by the loop over the regions reads the same whatever the
order in which `range` visits the entries. -/
theorem lookup_foldl_regionsStep_perm {ρ : Type} (ign : StringSet)
    (l₁ l₂ : List (Sigma (fun _ : Int => ρ))) (hl : l₁.NodupKeys) (hp : l₁.Perm l₂)
    (id : Int) :
    (l₂.foldl (regionsStep ign) ∅).lookup id = (l₁.foldl (regionsStep ign) ∅).lookup id := by
  have hl2 : l₂.NodupKeys := (List.perm_nodupKeys hp).1 hl
  rw [lookup_foldl_regionsStep ign l₁ hl, lookup_foldl_regionsStep ign l₂ hl2,
    List.perm_dlookup id hl hl2 hp]
  have hk : id ∈ l₁.keys ↔ id ∈ l₂.keys := (hp.map Sigma.fst).mem_iff
  by_cases h1 : id ∈ l₁.keys
  · have h2 := hk.1 h1
    simp [h1, h2]
  · have h2 : id ∉ l₂.keys := fun h => h1 (hk.2 h)
    simp [h1, h2]

/-- C14. Two runs of `generateMapResponse` on the same machine and the same
`h`, with collaborators that return the same data and may differ in the
clock only, make the same calls, return the same error, and return
responses that are equal once `ControlTime` is set to the same value.  The
order in which `range` visits the shared regions, which may differ between
the two runs, does not show in the map that is built. -/
theorem generateMapResponse_deterministic {ρ α δ φ σ υ τ ε : Type} (h : Headscale ρ δ φ σ)
    (c₁ c₂ : Collaborators α δ υ τ ε) (mapRequest : MapRequest) (machine : Machine)
    (hToNode : c₁.toNode = c₂.toNode)
    (hPeers : c₁.getValidPeers = c₂.getValidPeers)
    (hProfiles : c₁.getMapResponseUserProfiles = c₂.getMapResponseUserProfiles)
    (hToNodes : c₁.toNodes = c₂.toNodes)
    (hDNS : c₁.getMapResponseDNSConfig = c₂.getMapResponseDNSConfig) :
    (generateMapResponse (ρ := ρ) (φ := φ) (σ := σ) h c₁ mapRequest machine).calls =
      (generateMapResponse (ρ := ρ) (φ := φ) (σ := σ) h c₂ mapRequest machine).calls ∧
    (generateMapResponse (ρ := ρ) (φ := φ) (σ := σ) h c₁ mapRequest machine).err =
      (generateMapResponse (ρ := ρ) (φ := φ) (σ := σ) h c₂ mapRequest machine).err ∧
    ((generateMapResponse h c₁ mapRequest machine).response.map
        (fun r => { r with ControlTime := c₂.timeNow })) =
      (generateMapResponse h c₂ mapRequest machine).response ∧
    (∀ l : List (Sigma (fun _ : Int => ρ)), h.DERPMap.Regions.entries.Perm l →
      ∀ id : Int,
        (l.foldl (regionsStep (machine.ForcedTags.foldl ignRegionsStep ∅)) ∅).lookup id =
          (h.DERPMap.Regions.entries.foldl
            (regionsStep (machine.ForcedTags.foldl ignRegionsStep ∅)) ∅).lookup id) := by
  obtain ⟨t1, p1, u1, n1, d1, now1⟩ := c₁
  obtain ⟨t2, p2, u2, n2, d2, now2⟩ := c₂
  simp only at hToNode hPeers hProfiles hToNodes hDNS
  subst hToNode hPeers hProfiles hToNodes hDNS
  refine ⟨?_, ?_, ?_, ?_⟩
  · unfold generateMapResponse
    simp only
    split
    · rfl
    · split
      · rfl
      · split <;> rfl
  · unfold generateMapResponse
    simp only
    split
    · rfl
    · split
      · rfl
      · split <;> rfl
  · unfold generateMapResponse
    simp only
    split
    · rfl
    · split
      · rfl
      · split <;> rfl
  · intro l hp id
    exact lookup_foldl_regionsStep_perm _ _ _ h.DERPMap.Regions.nodupKeys hp id

/-- C14, at two collaborators that differ in the clock only (times 10 and
20): the responses differ in `ControlTime` at most. -/
theorem generateMapResponse_deterministic_witness :
    ((generateMapResponse (ρ := String) (φ := Unit) (σ := Unit)
        (Headscale.mk (DERPMap.mk ∅ false) (Config.mk "example.com" () true false) () ())
        (Collaborators.mk (fun _ _ _ => Except.ok (Node.mk "127.3.3.40:1" 0))
          (fun _ => (Except.ok [] : Except String (List Machine)))
          (fun _ _ => ()) (fun _ _ _ => Except.ok [])
          (fun d _ _ _ => d) (10 : Nat))
        (MapRequest.mk "host") (Machine.mk ["tag:ignore-derp-3"])).response.map
      (fun r => { r with ControlTime := 20 })) =
    (generateMapResponse (ρ := String) (φ := Unit) (σ := Unit)
        (Headscale.mk (DERPMap.mk ∅ false) (Config.mk "example.com" () true false) () ())
        (Collaborators.mk (fun _ _ _ => Except.ok (Node.mk "127.3.3.40:1" 0))
          (fun _ => (Except.ok [] : Except String (List Machine)))
          (fun _ _ => ()) (fun _ _ _ => Except.ok [])
          (fun d _ _ _ => d) (20 : Nat))
        (MapRequest.mk "host") (Machine.mk ["tag:ignore-derp-3"])).response :=
  (generateMapResponse_deterministic (ρ := String) (φ := Unit) (σ := Unit)
    (Headscale.mk (DERPMap.mk ∅ false) (Config.mk "example.com" () true false) () ())
    (Collaborators.mk (fun _ _ _ => Except.ok (Node.mk "127.3.3.40:1" 0))
      (fun _ => (Except.ok [] : Except String (List Machine)))
      (fun _ _ => ()) (fun _ _ _ => Except.ok [])
      (fun d _ _ _ => d) (10 : Nat))
    (Collaborators.mk (fun _ _ _ => Except.ok (Node.mk "127.3.3.40:1" 0))
      (fun _ => (Except.ok [] : Except String (List Machine)))
      (fun _ _ => ()) (fun _ _ _ => Except.ok [])
      (fun d _ _ _ => d) (20 : Nat))
    (MapRequest.mk "host") (Machine.mk ["tag:ignore-derp-3"]) rfl rfl rfl rfl rfl).2.2.1


/-! ## The shared topology in memory -/

/-- What `getDERPMapByMachine` leaves in the store, for a valid pointer `p`
to the shared map `d`: the call returns; `p` still leads to `d`; no object
allocated before the call has changed; the pointer returned leads to the
value computed by `getDERPMapByMachine`; and with an ignore tag that pointer,
and the reference of its `Regions`, are new. -/
theorem getDERPMapByMachineS_spec {ρ : Type} (s : Store ρ) (p : Nat) (machine : Machine)
    (d : DERPMap ρ) (hd : s.readDERPMap p = some d) :
    ∃ s1 q, getDERPMapByMachineS s p machine = some (s1, q) ∧
      s1.readDERPMap p = some d ∧
      (∀ a, a < s.regionMaps.length → s1.regionMaps[a]? = s.regionMaps[a]?) ∧
      (∀ a, a < s.derpMaps.length → s1.derpMaps[a]? = s.derpMaps[a]?) ∧
      s1.readDERPMap q = some (getDERPMapByMachine d machine) ∧
      ((∃ tag ∈ machine.ForcedTags, HasPrefix tag "tag:ignore-derp-" = true) →
        s.derpMaps.length ≤ q ∧
        ∃ r b, s1.derpMaps[q]? = some (r, b) ∧ s.regionMaps.length ≤ r) := by
  rw [getDERPMapByMachineS_eq s p machine d hd]
  by_cases h0 : (machine.ForcedTags.foldl ignRegionsStep ∅).entries.length = 0
  · rw [if_pos h0]
    refine ⟨s, p, rfl, hd, fun _ _ => rfl, fun _ _ => rfl, ?_, ?_⟩
    · rw [hd]
      unfold getDERPMapByMachine
      simp [h0]
    · intro hex
      exfalso
      obtain ⟨r, hr⟩ := (exists_remainder_iff _ _).2 hex
      exact (ignRegions_length machine).1 h0 r hr
  · rw [if_neg h0]
    refine ⟨_, _, rfl, readDERPMap_append s p d hd _ _, ?_, ?_, ?_, ?_⟩
    · intro a ha
      exact List.getElem?_append_left ha
    · intro a ha
      exact List.getElem?_append_left ha
    · unfold Store.readDERPMap
      simp only [List.getElem?_concat_length]
      have hom : (getDERPMapByMachine d machine).OmitDefaultRegions = d.OmitDefaultRegions :=
        getDERPMapByMachine_omit d machine
      rw [← hom]
    · intro _
      exact ⟨le_refl _, _, _, List.getElem?_concat_length _ _, le_refl _⟩

/-- C13. For a valid pointer `p` to the shared map `d`: after
`getDERPMapByMachine`, and after `generateMapResponse`, `p` still leads to
`d` (same keys, same values, same flag) and no map or struct allocated before
the call has changed; the pointer that `getDERPMapByMachine` returns leads to
the value computed by the function on values; and with an ignore tag that
pointer and the reference of its `Regions` were allocated by the call, so the
filtered map is a separate object. -/
theorem shared_DERPMap_not_mutated {ρ α δ φ σ υ τ ε : Type} (s : Store ρ) (p : Nat)
    (h : Headscale ρ δ φ σ) (c : Collaborators α δ υ τ ε) (machine : Machine)
    (d : DERPMap ρ) (hd : s.readDERPMap p = some d) :
    (∃ s1 q, getDERPMapByMachineS s p machine = some (s1, q) ∧
      s1.readDERPMap p = some d ∧
      (∀ a, a < s.regionMaps.length → s1.regionMaps[a]? = s.regionMaps[a]?) ∧
      (∀ a, a < s.derpMaps.length → s1.derpMaps[a]? = s.derpMaps[a]?) ∧
      s1.readDERPMap q = some (getDERPMapByMachine d machine) ∧
      ((∃ tag ∈ machine.ForcedTags, HasPrefix tag "tag:ignore-derp-" = true) →
        s.derpMaps.length ≤ q ∧
        ∃ r b, s1.derpMaps[q]? = some (r, b) ∧ s.regionMaps.length ≤ r)) ∧
    (∃ s1 q, generateMapResponseS s p h c machine = some (s1, q) ∧
      s1.readDERPMap p = some d ∧
      (∀ a, a < s.regionMaps.length → s1.regionMaps[a]? = s.regionMaps[a]?) ∧
      (∀ a, a < s.derpMaps.length → s1.derpMaps[a]? = s.derpMaps[a]?)) := by
  have key := getDERPMapByMachineS_spec s p machine d hd
  refine ⟨key, ?_⟩
  obtain ⟨s1, q, hrun, hread, hm, hs, -, -⟩ := key
  unfold generateMapResponseS
  split
  · exact ⟨s, none, rfl, hd, fun _ _ => rfl, fun _ _ => rfl⟩
  · split
    · exact ⟨s, none, rfl, hd, fun _ _ => rfl, fun _ _ => rfl⟩
    · split
      · exact ⟨s, none, rfl, hd, fun _ _ => rfl, fun _ _ => rfl⟩
      · rw [hrun]
        exact ⟨s1, some q, rfl, hread, hm, hs⟩

/-- C13, at a store with one shared map (regions 1 and 3) and the tag
`tag:ignore-derp-3`: after the call pointer 0 still leads to the shared map,
and the pointer returned is a new one. -/
theorem shared_DERPMap_not_mutated_witness :
    ∃ s1 q,
      getDERPMapByMachineS
        (Store.mk [((∅ : RegionMap String).insert 1 "a").insert 3 "c"] [(0, true)]) 0
        (Machine.mk ["tag:ignore-derp-3"]) = some (s1, q) ∧
      s1.readDERPMap 0 =
        some (DERPMap.mk (((∅ : RegionMap String).insert 1 "a").insert 3 "c") true) ∧
      1 ≤ q := by
  obtain ⟨s1, q, hrun, hread, -, -, -, hfresh⟩ :=
    (shared_DERPMap_not_mutated (α := Nat) (δ := Unit) (φ := Unit) (σ := Unit) (υ := Unit)
      (τ := Nat) (ε := String)
      (Store.mk [((∅ : RegionMap String).insert 1 "a").insert 3 "c"] [(0, true)]) 0
      (Headscale.mk (DERPMap.mk (((∅ : RegionMap String).insert 1 "a").insert 3 "c") true)
        (Config.mk "example.com" () true false) () ())
      (Collaborators.mk (fun _ _ _ => Except.ok (Node.mk "127.3.3.40:1" 0))
        (fun _ => Except.ok []) (fun _ _ => ()) (fun _ _ _ => Except.ok [])
        (fun d _ _ _ => d) (0 : Nat))
      (Machine.mk ["tag:ignore-derp-3"])
      (DERPMap.mk (((∅ : RegionMap String).insert 1 "a").insert 3 "c") true) (by rfl)).1
  exact ⟨s1, q, hrun, hread, (hfresh ⟨"tag:ignore-derp-3", by decide, by decide⟩).1⟩


/-! ## Totality -/

/-- The keys of the map returned by `getDERPMapByMachine` are keys of the
shared map. -/
theorem mem_of_mem_getDERPMapByMachine {ρ : Type} (derpMap : DERPMap ρ) (machine : Machine)
    (id : Int) (h : id ∈ (getDERPMapByMachine derpMap machine).Regions) :
    id ∈ derpMap.Regions ∧ ("tag:ignore-derp-" ++ SprintfD id) ∉ machine.ForcedTags := by
  by_cases hany : ∃ r : String, ("tag:ignore-derp-" ++ r) ∈ machine.ForcedTags
  · rw [← AList.lookup_isSome, getDERPMapByMachine_lookup derpMap machine hany id] at h
    by_cases hi : ("tag:ignore-derp-" ++ SprintfD id) ∈ machine.ForcedTags
    · simp [hi] at h
    · rw [if_neg hi, AList.lookup_isSome] at h
      exact ⟨h, hi⟩
  · have hnone : getDERPMapByMachine derpMap machine = derpMap := by
      unfold getDERPMapByMachine
      have h0 := (ignRegions_length machine).2 (not_exists.1 hany)
      simp [h0]
    rw [hnone] at h
    exact ⟨h, fun hi => hany ⟨_, hi⟩⟩

theorem length_filterPeerDERP {α : Type} (machine : Machine) (nodePeers : List (Node α)) :
    (filterPeerDERP machine nodePeers).length = nodePeers.length := by
  unfold filterPeerDERP
  dsimp only
  split
  · rfl
  · exact List.length_map _ _

/-- C16. `getDERPMapByMachine` and `filterPeerDERP` complete on every input.
On the store, for every tag list and every valid pointer to a shared map, the
call of `getDERPMapByMachine` returns, with a pointer to the value computed by
the function on values.  A shared map without regions, and one whose regions
are all excluded, give a map without regions.  `filterPeerDERP` returns a
list of the length of its input, the empty list on the empty list. -/
theorem filtering_total {ρ α : Type} (s : Store ρ) (p : Nat) (d : DERPMap ρ)
    (machine : Machine) (nodePeers : List (Node α)) (hd : s.readDERPMap p = some d) :
    (∃ s1 q, getDERPMapByMachineS s p machine = some (s1, q) ∧
      s1.readDERPMap q = some (getDERPMapByMachine d machine)) ∧
    ((∀ id : Int, id ∉ d.Regions) →
      ∀ id : Int, id ∉ (getDERPMapByMachine d machine).Regions) ∧
    ((∀ id : Int, id ∈ d.Regions →
        ∃ tag ∈ machine.ForcedTags, HasPrefix tag "tag:ignore-derp-" = true ∧
          TrimPrefix tag "tag:ignore-derp-" = SprintfD id) →
      (∃ tag ∈ machine.ForcedTags, HasPrefix tag "tag:ignore-derp-" = true) →
      ∀ id : Int, id ∉ (getDERPMapByMachine d machine).Regions) ∧
    (filterPeerDERP machine nodePeers).length = nodePeers.length ∧
    filterPeerDERP machine ([] : List (Node α)) = [] := by
  refine ⟨?_, ?_, ?_, length_filterPeerDERP machine nodePeers, ?_⟩
  · obtain ⟨s1, q, hrun, -, -, -, hq, -⟩ := getDERPMapByMachineS_spec s p machine d hd
    exact ⟨s1, q, hrun, hq⟩
  · intro hempty id hid
    exact hempty id (mem_of_mem_getDERPMapByMachine d machine id hid).1
  · intro hall _ id hid
    obtain ⟨hin, hnot⟩ := mem_of_mem_getDERPMapByMachine d machine id hid
    obtain ⟨tag, ht, hp, heq⟩ := hall id hin
    apply hnot
    rw [← heq, append_trimPrefix _ _ hp]
    exact ht
  · exact List.eq_nil_of_length_eq_zero (length_filterPeerDERP machine [])

/-- C16, at a store whose shared map has no region, a tag with an empty
remainder and a tag that is no directive: the call returns. -/
theorem filtering_total_witness :
    ∃ s1 q,
      getDERPMapByMachineS (Store.mk [(∅ : RegionMap String)] [(0, false)]) 0
        (Machine.mk ["tag:ignore-derp-", "junk"]) = some (s1, q) ∧
      s1.readDERPMap q =
        some (getDERPMapByMachine (DERPMap.mk (∅ : RegionMap String) false)
          (Machine.mk ["tag:ignore-derp-", "junk"])) :=
  (filtering_total (Store.mk [(∅ : RegionMap String)] [(0, false)]) 0
    (DERPMap.mk (∅ : RegionMap String) false) (Machine.mk ["tag:ignore-derp-", "junk"])
    [Node.mk "" 0, Node.mk "garbage" 1] (by rfl)).1

/-! ## Further properties of `filterPeerDERP` -/

/-- C17. When the fallback (`0` when no tag has the prefix
`tag:fallback-derp-`, the remainder of the last such tag otherwise) is not
the remainder of an ignore tag, then after `filterPeerDERP` no peer's `DERP`,
once the prefix `127.3.3.40:` is trimmed, is the remainder of an ignore
tag. -/
theorem filterPeerDERP_excludes {α : Type} (machine : Machine) (nodePeers : List (Node α))
    (fallback : String)
    (hfb : ((∀ tag ∈ machine.ForcedTags, HasPrefix tag "tag:fallback-derp-" = false) ∧
        fallback = "0") ∨
      ∃ pre post : List String,
        machine.ForcedTags = pre ++ ("tag:fallback-derp-" ++ fallback) :: post ∧
        ∀ tag ∈ post, HasPrefix tag "tag:fallback-derp-" = false)
    (hsafe : ("tag:ignore-derp-" ++ fallback) ∉ machine.ForcedTags) :
    ∀ p ∈ filterPeerDERP machine nodePeers,
      ("tag:ignore-derp-" ++ TrimPrefix p.DERP "127.3.3.40:") ∉ machine.ForcedTags := by
  intro p hp hmem
  rw [filterPeerDERP_eq_map machine nodePeers ⟨_, hmem⟩, List.mem_map] at hp
  obtain ⟨q, -, rfl⟩ := hp
  by_cases hq : ("tag:ignore-derp-" ++ TrimPrefix q.DERP derpMagicIP) ∈ machine.ForcedTags
  · rw [peerStep_of_mem machine q hq, tagScan_defaultDerp_eq machine fallback hfb] at hmem
    apply hsafe
    have ht : TrimPrefix (derpMagicIP ++ fallback) "127.3.3.40:" = fallback :=
      trimPrefix_append derpMagicIP fallback
    rw [← ht]
    exact hmem
  · rw [peerStep_of_not_mem machine q hq] at hmem
    exact hq hmem

/-- C17, at the tags `tag:ignore-derp-5`, `tag:fallback-derp-2` and peers at
regions 5 and 1: no peer is at region 5 after the call. -/
theorem filterPeerDERP_excludes_witness :
    ("tag:ignore-derp-" ++ "2") ∉
      (Machine.mk ["tag:ignore-derp-5", "tag:fallback-derp-2"]).ForcedTags ∧
    ∀ p ∈ filterPeerDERP (Machine.mk ["tag:ignore-derp-5", "tag:fallback-derp-2"])
        [Node.mk "127.3.3.40:5" 10, Node.mk "127.3.3.40:1" 11],
      ("tag:ignore-derp-" ++ TrimPrefix p.DERP "127.3.3.40:") ∉
        (Machine.mk ["tag:ignore-derp-5", "tag:fallback-derp-2"]).ForcedTags :=
  ⟨by decide,
    filterPeerDERP_excludes (Machine.mk ["tag:ignore-derp-5", "tag:fallback-derp-2"])
      [Node.mk "127.3.3.40:5" 10, Node.mk "127.3.3.40:1" 11] "2"
      (Or.inr ⟨["tag:ignore-derp-5"], [], by decide, by decide⟩) (by decide)⟩

theorem peerStep_idem {α : Type} (machine : Machine) (p : Node α) :
    peerStep (tagScan machine) (peerStep (tagScan machine) p) =
      peerStep (tagScan machine) p := by
  by_cases hq : ("tag:ignore-derp-" ++ TrimPrefix p.DERP derpMagicIP) ∈ machine.ForcedTags
  · rw [peerStep_of_mem machine p hq]
    by_cases hf : ("tag:ignore-derp-" ++ (tagScan machine).defaultDerp) ∈ machine.ForcedTags
    · rw [peerStep_of_mem machine _ (by simpa only [trimPrefix_append] using hf)]
    · rw [peerStep_of_not_mem machine _ (by simpa only [trimPrefix_append] using hf)]
  · rw [peerStep_of_not_mem machine p hq, peerStep_of_not_mem machine p hq]

/-- C18. Applying `filterPeerDERP` twice with the same machine gives the peer
list that applying it once gives, for every tag list, also when the fallback
is itself excluded. -/
theorem filterPeerDERP_idempotent {α : Type} (machine : Machine) (nodePeers : List (Node α)) :
    filterPeerDERP machine (filterPeerDERP machine nodePeers) =
      filterPeerDERP machine nodePeers := by
  by_cases hany : ∃ r : String, ("tag:ignore-derp-" ++ r) ∈ machine.ForcedTags
  · rw [filterPeerDERP_eq_map machine _ hany, filterPeerDERP_eq_map machine _ hany,
      List.map_map]
    apply List.map_congr_left
    intro p _
    exact peerStep_idem machine p
  · have hnoop : ∀ l : List (Node α), filterPeerDERP machine l = l := by
      intro l
      unfold filterPeerDERP
      have h0 := (tagScan_ignRegions_length machine).2 (not_exists.1 hany)
      simp [h0]
    rw [hnoop, hnoop]


/-! ## Agreement of the two views -/

/-- C19. `getDERPMapByMachine` and `filterPeerDERP` build the same excluded
set from a machine's tags.  So, for a machine with an ignore tag and a peer
whose `DERP` is `127.3.3.40:` followed by the decimal rendering of a key `id`
of the shared map, the test on line 56 succeeds (the peer's `DERP` is
assigned) exactly when `id` is absent from the map returned by
`getDERPMapByMachine`: the peer ends at `127.3.3.40:` followed by the
fallback when `id` is absent, and is left as it was when `id` is present. -/
theorem views_agree {ρ α : Type} (derpMap : DERPMap ρ) (machine : Machine)
    (nodePeers : List (Node α))
    (hign : ∃ tag ∈ machine.ForcedTags, HasPrefix tag "tag:ignore-derp-" = true)
    (i : Nat) (p : Node α) (id : Int) (hp : nodePeers[i]? = some p)
    (hs : p.DERP = "127.3.3.40:" ++ SprintfD id) (hid : id ∈ derpMap.Regions) :
    (tagScan machine).ignRegions = machine.ForcedTags.foldl ignRegionsStep ∅ ∧
    (((tagScan machine).ignRegions.lookup (TrimPrefix p.DERP "127.3.3.40:")).isSome = true ↔
      id ∉ (getDERPMapByMachine derpMap machine).Regions) ∧
    (id ∉ (getDERPMapByMachine derpMap machine).Regions →
      (filterPeerDERP machine nodePeers)[i]? =
        some { p with DERP := "127.3.3.40:" ++ (tagScan machine).defaultDerp }) ∧
    (id ∈ (getDERPMapByMachine derpMap machine).Regions →
      (filterPeerDERP machine nodePeers)[i]? = some p) := by
  have hany := (exists_remainder_iff _ _).2 hign
  have htrim : TrimPrefix p.DERP derpMagicIP = SprintfD id := by
    rw [hs]; exact trimPrefix_append _ _
  have hkey : id ∉ (getDERPMapByMachine derpMap machine).Regions ↔
      ("tag:ignore-derp-" ++ SprintfD id) ∈ machine.ForcedTags := by
    rw [← AList.lookup_isSome, getDERPMapByMachine_lookup derpMap machine hany id]
    by_cases hi : ("tag:ignore-derp-" ++ SprintfD id) ∈ machine.ForcedTags
    · simp [hi]
    · simp only [hi, if_false, iff_false, not_not]
      exact AList.lookup_isSome.2 hid
  refine ⟨foldl_tagScanStep_ignRegions _ _, ?_, ?_, ?_⟩
  · show ((tagScan machine).ignRegions.lookup (TrimPrefix p.DERP derpMagicIP)).isSome = true ↔ _
    rw [htrim, AList.lookup_isSome, mem_tagScan_ignRegions, hkey]
  · intro habs
    rw [filterPeerDERP_getElem_peerStep machine nodePeers hign i p hp,
      peerStep_of_mem machine p (by rw [htrim]; exact hkey.1 habs)]
    rfl
  · intro hpres
    rw [filterPeerDERP_getElem_peerStep machine nodePeers hign i p hp,
      peerStep_of_not_mem machine p (by rw [htrim]; exact fun hm => hkey.2 hm hpres)]

/-- C19, at the tags `tag:ignore-derp-3`, `tag:fallback-derp-7`, a shared map
with regions 3 and 4, and a peer at region 3: region 3 is absent from the
returned map and the peer is moved to region 7. -/
theorem views_agree_witness :
    (3 : Int) ∉ (getDERPMapByMachine
      (DERPMap.mk (((∅ : RegionMap String).insert 3 "c").insert 4 "d") true)
      (Machine.mk ["tag:ignore-derp-3", "tag:fallback-derp-7"])).Regions ∧
    (filterPeerDERP (Machine.mk ["tag:ignore-derp-3", "tag:fallback-derp-7"])
        [Node.mk "127.3.3.40:3" 10])[0]? = some (Node.mk "127.3.3.40:7" 10) := by
  have key := views_agree
    (DERPMap.mk (((∅ : RegionMap String).insert 3 "c").insert 4 "d") true)
    (Machine.mk ["tag:ignore-derp-3", "tag:fallback-derp-7"]) [Node.mk "127.3.3.40:3" 10]
    ⟨"tag:ignore-derp-3", by decide, by decide⟩ 0 (Node.mk "127.3.3.40:3" 10) 3
    (by decide) (by decide) (by decide)
  have habs := key.2.1.1 (by decide)
  exact ⟨habs, (key.2.2.1 habs).trans (by decide)⟩

/-! ## Frame of the redirection -/

/-- C20. `filterPeerDERP` keeps the number of peers and their order and
changes no field other than `DERP`: the peer at each position has its other
fields as before, and its `DERP` is the one before the call or `127.3.3.40:`
followed by the fallback (`0` when no tag has the prefix
`tag:fallback-derp-`, the remainder of the last such tag otherwise). -/
theorem filterPeerDERP_frame {α : Type} (machine : Machine) (nodePeers : List (Node α))
    (fallback : String)
    (hfb : ((∀ tag ∈ machine.ForcedTags, HasPrefix tag "tag:fallback-derp-" = false) ∧
        fallback = "0") ∨
      ∃ pre post : List String,
        machine.ForcedTags = pre ++ ("tag:fallback-derp-" ++ fallback) :: post ∧
        ∀ tag ∈ post, HasPrefix tag "tag:fallback-derp-" = false) :
    (filterPeerDERP machine nodePeers).length = nodePeers.length ∧
    ∀ (i : Nat) (p : Node α), nodePeers[i]? = some p →
      ∃ q, (filterPeerDERP machine nodePeers)[i]? = some q ∧ q.other = p.other ∧
        (q.DERP = p.DERP ∨ q.DERP = "127.3.3.40:" ++ fallback) := by
  refine ⟨length_filterPeerDERP machine nodePeers, ?_⟩
  intro i p hp
  by_cases hany : ∃ r : String, ("tag:ignore-derp-" ++ r) ∈ machine.ForcedTags
  · rw [filterPeerDERP_getElem_peerStep machine nodePeers ((exists_remainder_iff _ _).1 hany)
      i p hp]
    by_cases hq : ("tag:ignore-derp-" ++ TrimPrefix p.DERP derpMagicIP) ∈ machine.ForcedTags
    · rw [peerStep_of_mem machine p hq, tagScan_defaultDerp_eq machine fallback hfb]
      exact ⟨_, rfl, rfl, Or.inr rfl⟩
    · rw [peerStep_of_not_mem machine p hq]
      exact ⟨p, rfl, rfl, Or.inl rfl⟩
  · have hnoop : filterPeerDERP machine nodePeers = nodePeers := by
      unfold filterPeerDERP
      have h0 := (tagScan_ignRegions_length machine).2 (not_exists.1 hany)
      simp [h0]
    rw [hnoop]
    exact ⟨p, hp, rfl, Or.inl rfl⟩

/-- C20, at the tags `tag:ignore-derp-3`, `tag:fallback-derp-7` and two
peers: two peers come back, in the same order. -/
theorem filterPeerDERP_frame_witness :
    (filterPeerDERP (Machine.mk ["tag:ignore-derp-3", "tag:fallback-derp-7"])
        [Node.mk "127.3.3.40:3" 10, Node.mk "127.3.3.40:4" 11]).length = 2 ∧
    ∃ q, (filterPeerDERP (Machine.mk ["tag:ignore-derp-3", "tag:fallback-derp-7"])
        [Node.mk "127.3.3.40:3" 10, Node.mk "127.3.3.40:4" 11])[0]? = some q ∧
      q.other = 10 ∧ (q.DERP = "127.3.3.40:3" ∨ q.DERP = "127.3.3.40:" ++ "7") := by
  have key := filterPeerDERP_frame (Machine.mk ["tag:ignore-derp-3", "tag:fallback-derp-7"])
    [Node.mk "127.3.3.40:3" 10, Node.mk "127.3.3.40:4" 11] "7"
    (Or.inr ⟨["tag:ignore-derp-3"], [], by decide, by decide⟩)
  exact ⟨key.1, key.2 0 (Node.mk "127.3.3.40:3" 10) (by decide)⟩

end ApiCommon
